import Mathlib

/-!
Verification of the drawing engine in `src/engines/drawing/DrawingEngine.ts`
(class `SkiaDrawingEngine`).

The engine is embedded shallowly: JavaScript numbers are modelled as `ℚ`,
Skia path/paint objects as inductive descriptors, and the mutable engine
object as an explicit `EngineState` record threaded through the operations.
`JSON.parse(JSON.stringify(...))` deep copies are modelled by `deepCopy*`,
which strip the derived Skia `path`/`paint` objects (host objects do not
survive a JSON round trip as usable values; `restoreState` rebuilds them
via `rebuildSkiaObjects`).
-/

set_option maxHeartbeats 1000000

set_option maxRecDepth 100000

namespace DrawingEngine

/-- Mirrors interface `Point` (x, y, pressure, timestamp, optional tilt and
velocity). -/
structure Point where
  x : ℚ
  y : ℚ
  pressure : ℚ
  timestamp : ℕ
  tilt : Option (ℚ × ℚ) := none
  velocity : Option ℚ := none
deriving DecidableEq, Repr

instance : Inhabited Point := ⟨⟨0, 0, 0, 0, none, none⟩⟩

/-- The brush `type` union in `BrushSettings`. -/
inductive BrushType
  | pencil
  | pen
  | brush
  | marker
  | airbrush
  | eraser
deriving DecidableEq, Repr

/-- Skia blend modes; the engine only ever constructs `SrcOver`, other values
are kept abstract by their numeric code. -/
inductive BlendMode
  | srcOver
  | other (code : ℕ)
deriving DecidableEq, Repr

/-- Mirrors interface `BrushSettings`. -/
structure BrushSettings where
  id : String
  name : String
  type : BrushType
  size : ℚ
  opacity : ℚ
  flow : ℚ
  hardness : ℚ
  spacing : ℚ
  scattering : ℚ
  pressureSize : Bool
  pressureOpacity : Bool
  pressureFlow : Bool
  angleJitter : ℚ
  textureId : Option String := none
  blendMode : BlendMode
deriving DecidableEq, Repr

/-- One Skia path construction command issued by `createPath`. -/
inductive PathCmd
  | moveTo (x y : ℚ)
  | lineTo (x y : ℚ)
  | quadTo (cx cy x y : ℚ)
  | addCircle (cx cy r : ℚ)
deriving DecidableEq, Repr

/-- A built Skia path, as its command list. -/
abbrev SkPath := List PathCmd

/-- The observable configuration of a Skia paint built by `createPaint`. -/
structure SkPaint where
  color : String
  alphaf : ℚ
  strokeWidth : ℚ
  style : ℕ
  antiAlias : Bool
  roundCap : Bool
  roundJoin : Bool
  blendMode : BlendMode
  blurMask : Option (ℕ × ℚ × Bool) := none
deriving DecidableEq, Repr

/-- Mirrors interface `Stroke`; `path`/`paint` are the optional derived
fields. -/
structure Stroke where
  id : String
  points : List Point
  brush : BrushSettings
  color : String
  size : ℚ
  opacity : ℚ
  blendMode : BlendMode
  path : Option SkPath := none
  paint : Option SkPaint := none
  layerId : String
  timestamp : ℕ
deriving DecidableEq, Repr

/-- Mirrors interface `Layer`. -/
structure Layer where
  id : String
  name : String
  strokes : List Stroke
  opacity : ℚ
  blendMode : BlendMode
  visible : Bool
  locked : Bool
  order : ℤ
deriving DecidableEq, Repr

instance : Inhabited BrushSettings :=
  ⟨⟨"", "", BrushType.pencil, 0, 0, 0, 0, 0, 0, false, false, false, 0,
    none, BlendMode.srcOver⟩⟩

instance : Inhabited Stroke :=
  ⟨⟨"", [], default, "", 0, 0, BlendMode.srcOver, none, none, "", 0⟩⟩

instance : Inhabited Layer :=
  ⟨⟨"", "", [], 0, BlendMode.srcOver, true, false, 0⟩⟩

/-- One history entry, as assembled in `saveState` (layers, activeLayerId,
timestamp). -/
structure CanvasState where
  layers : List Layer
  activeLayerId : String
  timestamp : ℕ
deriving DecidableEq, Repr

instance : Inhabited CanvasState := ⟨⟨[], "", 0⟩⟩

/-- The mutable fields of class `SkiaDrawingEngine`. -/
structure EngineState where
  canvasWidth : ℚ
  canvasHeight : ℚ
  backgroundColor : String
  layers : List Layer
  activeLayerId : String
  currentStroke : Option Stroke
  isDrawing : Bool
  activeBrush : BrushSettings
  activeColor : String
  history : List CanvasState
  historyIndex : ℤ
  maxHistorySize : ℕ
  strokeIdCounter : ℕ
  layerIdCounter : ℕ
deriving DecidableEq, Repr

/-- JSON round trip of a stroke: data fields survive, the Skia `path`/`paint`
host objects do not. -/
def deepCopyStroke (s : Stroke) : Stroke :=
  { s with path := none, paint := none }

/-- JSON round trip of a layer. -/
def deepCopyLayer (l : Layer) : Layer :=
  { l with strokes := l.strokes.map deepCopyStroke }

/-- JSON round trip of a layer list, as used by `saveState`/`restoreState`. -/
def deepCopyLayers (ls : List Layer) : List Layer :=
  ls.map deepCopyLayer

/-- Method `calculateBrushSize`: pressure-to-width brush dynamics.  Note the
source applies no clamping to `pressure`. -/
def calculateBrushSize (brush : BrushSettings) (pressure : ℚ) : ℚ :=
  let baseSize := brush.size
  if brush.pressureSize = false then baseSize
  else
    let minSize := baseSize * (1 / 10)
    let maxSize := baseSize
    minSize + (maxSize - minSize) * pressure

/-- Method `calculateBrushOpacity`: pressure-to-opacity brush dynamics. -/
def calculateBrushOpacity (brush : BrushSettings) (pressure : ℚ) : ℚ :=
  let baseOpacity := brush.opacity
  if brush.pressureOpacity = false then baseOpacity
  else
    let minOpacity := baseOpacity * (1 / 10)
    let maxOpacity := baseOpacity
    minOpacity + (maxOpacity - minOpacity) * pressure

/-- Method `smoothPoint`: exponential position blend toward the previous
point with factor `1 - spacing`; pressure/timestamp/tilt/velocity pass
through unmodified. -/
def smoothPoint (brush : BrushSettings) (point : Point)
    (previousPoints : List Point) : Point :=
  match previousPoints.getLast? with
  | none => point
  | some last =>
    let f := 1 - brush.spacing
    { x := last.x + (point.x - last.x) * f
      y := last.y + (point.y - last.y) * f
      pressure := point.pressure
      timestamp := point.timestamp
      tilt := point.tilt
      velocity := point.velocity }

/-- The quadratic-curve command emitted at loop index `i` of `createPath`
(control point `points[i]`, endpoint the midpoint of `points[i]` and
`points[i+1]`). -/
def midQuadCmd (points : List Point) (i : ℕ) : PathCmd :=
  let current := points.getD i default
  let next := points.getD (i + 1) default
  PathCmd.quadTo current.x current.y
    ((current.x + next.x) / 2) ((current.y + next.y) / 2)

/-- Method `createPath`.  The single-point branch reads
`this.activeBrush.size` (the engine's current brush, not the stroke's
snapshot), so the current active brush size is a parameter. -/
def createPath (activeBrushSize : ℚ) (points : List Point) : SkPath :=
  if points.length = 0 then []
  else if points.length = 1 then
    let p := points.getD 0 default
    [PathCmd.addCircle p.x p.y (activeBrushSize / 2)]
  else
    let p0 := points.getD 0 default
    let mids := (List.range (points.length - 2)).map
      (fun j => midQuadCmd points (j + 1))
    let lastP := points.getD (points.length - 1) default
    PathCmd.moveTo p0.x p0.y :: mids ++ [PathCmd.lineTo lastP.x lastP.y]

/-- Method `createPaint`: a pure function of the stroke's own fields. -/
def createPaint (stroke : Stroke) : SkPaint :=
  { color := stroke.color
    alphaf := stroke.opacity
    strokeWidth := stroke.size
    style := 1
    antiAlias := true
    roundCap := true
    roundJoin := true
    blendMode := stroke.blendMode
    blurMask :=
      if stroke.brush.type = BrushType.airbrush then some (0, 2, true)
      else none }

/-- Method `generateStrokeId`; `counter` is the already-incremented
`strokeIdCounter`. -/
def generateStrokeId (now counter : ℕ) : String :=
  "stroke_" ++ toString now ++ "_" ++ toString counter

/-- Method `generateLayerId`; `counter` is the already-incremented
`layerIdCounter`. -/
def generateLayerId (now counter : ℕ) : String :=
  "layer_" ++ toString now ++ "_" ++ toString counter

/-- Method `getActiveLayer`: first layer whose id matches
`activeLayerId`. -/
def getActiveLayer (s : EngineState) : Option Layer :=
  s.layers.find? (fun l => l.id == s.activeLayerId)

/-- Method `saveState`: truncate entries after the cursor, push a deep copy
of `(layers, activeLayerId)`, advance the cursor, and evict the oldest
entry when the bound `maxHistorySize` is exceeded. -/
def saveState (now : ℕ) (s : EngineState) : EngineState :=
  let trimmed := s.history.take (s.historyIndex + 1).toNat
  let snap : CanvasState :=
    { layers := deepCopyLayers s.layers
      activeLayerId := s.activeLayerId
      timestamp := now }
  let hist := trimmed ++ [snap]
  let idx := s.historyIndex + 1
  if s.maxHistorySize < hist.length then
    { s with history := hist.drop 1, historyIndex := idx - 1 }
  else
    { s with history := hist, historyIndex := idx }

/-- The per-stroke rebuild step of `rebuildSkiaObjects`. -/
def rebuildStroke (activeBrush : BrushSettings) (st : Stroke) : Stroke :=
  if 0 < st.points.length then
    { st with
      path := some (createPath activeBrush.size st.points)
      paint := some (createPaint st) }
  else st

/-- The per-layer rebuild step of `rebuildSkiaObjects`. -/
def rebuildLayer (activeBrush : BrushSettings) (l : Layer) : Layer :=
  { l with strokes := l.strokes.map (rebuildStroke activeBrush) }

/-- Method `restoreState`: install a deep copy of the snapshot's layers and
its active layer id, then rebuild the Skia objects with the engine's
current `activeBrush`. -/
def restoreState (st : CanvasState) (s : EngineState) : EngineState :=
  { s with
    layers := (deepCopyLayers st.layers).map (rebuildLayer s.activeBrush)
    activeLayerId := st.activeLayerId }

/-- Method `undo`: fails at the first entry, otherwise moves the cursor back
one and restores that snapshot. -/
def undo (s : EngineState) : EngineState × Bool :=
  if s.historyIndex ≤ 0 then (s, false)
  else
    let idx := s.historyIndex - 1
    (restoreState (s.history.getD idx.toNat default)
      { s with historyIndex := idx }, true)

/-- Method `redo`: fails at the last entry, otherwise moves the cursor
forward one and restores that snapshot. -/
def redo (s : EngineState) : EngineState × Bool :=
  if (s.history.length : ℤ) - 1 ≤ s.historyIndex then (s, false)
  else
    let idx := s.historyIndex + 1
    (restoreState (s.history.getD idx.toNat default)
      { s with historyIndex := idx }, true)

/-- The stroke record built at the top of `startStroke` (before `path` and
`paint` are attached). -/
def initialStrokeData (now counter : ℕ) (brush : BrushSettings)
    (colorv lid : String) (p : Point) : Stroke :=
  { id := generateStrokeId now counter
    points := [p]
    brush := brush
    color := colorv
    size := calculateBrushSize brush p.pressure
    opacity := calculateBrushOpacity brush p.pressure
    blendMode := brush.blendMode
    layerId := lid
    timestamp := now }

/-- The stroke held in `currentStroke` right after `startStroke` (path and
paint attached). -/
def initialStroke (now counter : ℕ) (brush : BrushSettings)
    (colorv lid : String) (p : Point) : Stroke :=
  let st := initialStrokeData now counter brush colorv lid p
  { st with
    path := some (createPath brush.size [p])
    paint := some (createPaint st) }

/-- Method `startStroke`: no-op while drawing or when the active layer is
missing or locked; otherwise create the stroke, mark drawing, and take the
history snapshot (note: taken at stroke start, with the stroke not yet in
any layer). -/
def startStroke (now : ℕ) (p : Point) (s : EngineState) : EngineState :=
  if s.isDrawing then s
  else
    match getActiveLayer s with
    | none => s
    | some activeLayer =>
      if activeLayer.locked then s
      else
        let counter := s.strokeIdCounter + 1
        saveState now
          { s with
            currentStroke :=
              some (initialStroke now counter s.activeBrush s.activeColor
                s.activeLayerId p)
            isDrawing := true
            strokeIdCounter := counter }

/-- The update `addStrokePoint` performs on the current stroke: smooth the
sample, append it, recompute size/opacity from its pressure, rebuild the
path. -/
def addPointToStroke (brush : BrushSettings) (cur : Stroke)
    (p : Point) : Stroke :=
  let sp := smoothPoint brush p cur.points
  let pts := cur.points ++ [sp]
  { cur with
    points := pts
    size := calculateBrushSize brush sp.pressure
    opacity := calculateBrushOpacity brush sp.pressure
    path := some (createPath brush.size pts) }

/-- Method `addStrokePoint`: no-op unless a stroke is in progress. -/
def addStrokePoint (p : Point) (s : EngineState) : EngineState :=
  if s.isDrawing = false then s
  else
    match s.currentStroke with
    | none => s
    | some cur =>
      { s with currentStroke := some (addPointToStroke s.activeBrush cur p) }

/-- Append a stroke to the first layer with the given id (the in-place
`activeLayer.strokes.push` of the source). -/
def pushStrokeToLayer (lid : String) (st : Stroke) :
    List Layer → List Layer
  | [] => []
  | l :: ls =>
    if l.id == lid then { l with strokes := l.strokes ++ [st] } :: ls
    else l :: pushStrokeToLayer lid st ls

/-- The finalization `endStroke` performs on the current stroke. -/
def finalizeStroke (brush : BrushSettings) (cur : Stroke) : Stroke :=
  let cur2 := { cur with path := some (createPath brush.size cur.points) }
  { cur2 with paint := some (createPaint cur2) }

/-- Method `endStroke`: no-op unless drawing; otherwise finalize the stroke,
append it to the active layer, and return to the idle state.  No history
snapshot is taken here. -/
def endStroke (s : EngineState) : EngineState :=
  if s.isDrawing = false then s
  else
    match s.currentStroke with
    | none => s
    | some cur =>
      let cur3 := finalizeStroke s.activeBrush cur
      let layers2 :=
        match getActiveLayer s with
        | some _ => pushStrokeToLayer s.activeLayerId cur3 s.layers
        | none => s.layers
      { s with layers := layers2, currentStroke := none, isDrawing := false }

/-- Method `createLayer`. -/
def createLayer (now : ℕ) (name : Option String) (s : EngineState) :
    EngineState × Layer :=
  let counter := s.layerIdCounter + 1
  let nm :=
    match name with
    | some n => n
    | none => "Layer " ++ toString (s.layers.length + 1)
  let layer : Layer :=
    { id := generateLayerId now counter
      name := nm
      strokes := []
      opacity := 1
      blendMode := BlendMode.srcOver
      visible := true
      locked := false
      order := s.layers.length }
  ({ s with layers := s.layers ++ [layer], layerIdCounter := counter }, layer)

/-- Method `deleteLayer`: refuses to delete the last remaining layer or an
unknown id; when the deleted layer was active, the new active layer is the
first remaining one. -/
def deleteLayer (lid : String) (s : EngineState) : EngineState × Bool :=
  if s.layers.length ≤ 1 then (s, false)
  else if (s.layers.findIdx? (fun l => l.id == lid)).isNone then (s, false)
  else
    let layers2 := s.layers.eraseP (fun l => l.id == lid)
    let newActive :=
      if s.activeLayerId == lid then
        match layers2.head? with
        | some l => l.id
        | none => ""
      else s.activeLayerId
    ({ s with layers := layers2, activeLayerId := newActive }, true)

/-- Method `setActiveLayer`. -/
def setActiveLayer (lid : String) (s : EngineState) : EngineState × Bool :=
  if (s.layers.find? (fun l => l.id == lid)).isSome then
    ({ s with activeLayerId := lid }, true)
  else (s, false)

/-- Apply a function to the first layer with the given id (the source
mutates the layer returned by `find`). -/
def updateFirstLayer (lid : String) (f : Layer → Layer) :
    List Layer → List Layer
  | [] => []
  | l :: ls =>
    if l.id == lid then f l :: ls else l :: updateFirstLayer lid f ls

/-- Method `setLayerOpacity` (clamps to `[0, 1]`). -/
def setLayerOpacity (lid : String) (opacity : ℚ) (s : EngineState) :
    EngineState × Bool :=
  if (s.layers.find? (fun l => l.id == lid)).isSome then
    ({ s with
        layers := updateFirstLayer lid
          (fun l => { l with opacity := max 0 (min 1 opacity) }) s.layers },
      true)
  else (s, false)

/-- Method `setLayerVisibility`. -/
def setLayerVisibility (lid : String) (visible : Bool) (s : EngineState) :
    EngineState × Bool :=
  if (s.layers.find? (fun l => l.id == lid)).isSome then
    ({ s with
        layers := updateFirstLayer lid
          (fun l => { l with visible := visible }) s.layers },
      true)
  else (s, false)

/-- Method `setBrush` (value copy of the argument). -/
def setBrush (b : BrushSettings) (s : EngineState) : EngineState :=
  { s with activeBrush := b }

/-- Method `setColor`. -/
def setColor (c : String) (s : EngineState) : EngineState :=
  { s with activeColor := c }

/-- Method `setBrushSize` (clamps to `[1, 100]`). -/
def setBrushSize (sz : ℚ) (s : EngineState) : EngineState :=
  { s with activeBrush := { s.activeBrush with size := max 1 (min 100 sz) } }

/-- Method `setBrushOpacity` (clamps to `[0, 1]`). -/
def setBrushOpacity (o : ℚ) (s : EngineState) : EngineState :=
  { s with
    activeBrush := { s.activeBrush with opacity := max 0 (min 1 o) } }

/-- Method `clearCanvas`: one snapshot, then empty every layer. -/
def clearCanvas (now : ℕ) (s : EngineState) : EngineState :=
  let s2 := saveState now s
  { s2 with layers := s2.layers.map (fun l => { l with strokes := [] }) }

/-- Method `clearLayer`: snapshot, then empty the addressed layer. -/
def clearLayer (now : ℕ) (lid : String) (s : EngineState) :
    EngineState × Bool :=
  if (s.layers.find? (fun l => l.id == lid)).isSome then
    let s2 := saveState now s
    ({ s2 with
        layers := updateFirstLayer lid
          (fun l => { l with strokes := [] }) s2.layers },
      true)
  else (s, false)

/-- Method `setCanvasSize`. -/
def setCanvasSize (w h : ℚ) (s : EngineState) : EngineState :=
  { s with canvasWidth := w, canvasHeight := h }

/-- Method `setBackgroundColor`. -/
def setBackgroundColor (c : String) (s : EngineState) : EngineState :=
  { s with backgroundColor := c }

/-- The default pencil brush from the field initializer and
`initializeDefaultBrush`. -/
def defaultBrush : BrushSettings :=
  { id := "default_pencil"
    name := "Pencil"
    type := BrushType.pencil
    size := 8
    opacity := 1
    flow := 1
    hardness := 4 / 5
    spacing := 1 / 10
    scattering := 0
    pressureSize := true
    pressureOpacity := true
    pressureFlow := false
    angleJitter := 0
    textureId := none
    blendMode := BlendMode.srcOver }

/-- The default layer created by `createDefaultLayer` in the constructor. -/
def defaultLayer (now : ℕ) : Layer :=
  { id := generateLayerId now 1
    name := "Layer 1"
    strokes := []
    opacity := 1
    blendMode := BlendMode.srcOver
    visible := true
    locked := false
    order := 0 }

/-- The engine state right after the constructor runs. -/
def initEngine (now : ℕ) : EngineState :=
  { canvasWidth := 1024
    canvasHeight := 768
    backgroundColor := "#FFFFFF"
    layers := [defaultLayer now]
    activeLayerId := (defaultLayer now).id
    currentStroke := none
    isDrawing := false
    activeBrush := defaultBrush
    activeColor := "#000000"
    history := []
    historyIndex := -1
    maxHistorySize := 50
    strokeIdCounter := 0
    layerIdCounter := 1 }

/-- Total stroke count across layers, as in `getCanvasStats`. -/
def totalStrokes (s : EngineState) : ℕ :=
  (s.layers.map (fun l => l.strokes.length)).sum

/-- The public mutating operations of the engine, for reasoning about
arbitrary call sequences. -/
inductive Op
  | opStartStroke (now : ℕ) (p : Point)
  | opAddStrokePoint (p : Point)
  | opEndStroke
  | opUndo
  | opRedo
  | opCreateLayer (now : ℕ) (name : Option String)
  | opDeleteLayer (lid : String)
  | opSetActiveLayer (lid : String)
  | opSetLayerOpacity (lid : String) (v : ℚ)
  | opSetLayerVisibility (lid : String) (b : Bool)
  | opSetBrush (b : BrushSettings)
  | opSetColor (c : String)
  | opSetBrushSize (v : ℚ)
  | opSetBrushOpacity (v : ℚ)
  | opClearCanvas (now : ℕ)
  | opClearLayer (now : ℕ) (lid : String)
  | opSetCanvasSize (w h : ℚ)
  | opSetBackgroundColor (c : String)
deriving DecidableEq, Repr

/-- Apply one public operation (boolean results discarded). -/
def applyOp (s : EngineState) (o : Op) : EngineState :=
  match o with
  | Op.opStartStroke now p => startStroke now p s
  | Op.opAddStrokePoint p => addStrokePoint p s
  | Op.opEndStroke => endStroke s
  | Op.opUndo => (undo s).1
  | Op.opRedo => (redo s).1
  | Op.opCreateLayer now name => (createLayer now name s).1
  | Op.opDeleteLayer lid => (deleteLayer lid s).1
  | Op.opSetActiveLayer lid => (setActiveLayer lid s).1
  | Op.opSetLayerOpacity lid v => (setLayerOpacity lid v s).1
  | Op.opSetLayerVisibility lid b => (setLayerVisibility lid b s).1
  | Op.opSetBrush b => setBrush b s
  | Op.opSetColor c => setColor c s
  | Op.opSetBrushSize v => setBrushSize v s
  | Op.opSetBrushOpacity v => setBrushOpacity v s
  | Op.opClearCanvas now => clearCanvas now s
  | Op.opClearLayer now lid => (clearLayer now lid s).1
  | Op.opSetCanvasSize w h => setCanvasSize w h s
  | Op.opSetBackgroundColor c => setBackgroundColor c s

/-- Run a sequence of public operations. -/
def runOps (s : EngineState) (ops : List Op) : EngineState :=
  ops.foldl applyOp s

/-- One completed stroke at the engine boundary: `startStroke` with `first`,
then `addStrokePoint` for each of `rest`, then `endStroke`; `now` is the
clock value during the gesture. -/
structure StrokeSpec where
  now : ℕ
  first : Point
  rest : List Point
deriving DecidableEq, Repr

instance : Inhabited StrokeSpec := ⟨⟨0, default, []⟩⟩

/-- Execute one completed stroke. -/
def doStroke (s : EngineState) (g : StrokeSpec) : EngineState :=
  endStroke (g.rest.foldl (fun acc p => addStrokePoint p acc)
    (startStroke g.now g.first s))

/-- Execute a sequence of completed strokes. -/
def runStrokes (s : EngineState) (gs : List StrokeSpec) : EngineState :=
  gs.foldl doStroke s

/-- The completed stroke produced by one `StrokeSpec` when the stroke
counter had value `counter - 1` before the gesture. -/
def strokeOf (brush : BrushSettings) (colorv lid : String) (counter : ℕ)
    (g : StrokeSpec) : Stroke :=
  finalizeStroke brush
    (g.rest.foldl (addPointToStroke brush)
      (initialStroke g.now counter brush colorv lid g.first))

/-- The strokes a sequence of gestures deposits, starting from stroke
counter value `counter`. -/
def strokesFrom (brush : BrushSettings) (colorv lid : String)
    (counter : ℕ) : List StrokeSpec → List Stroke
  | [] => []
  | g :: gs =>
    strokeOf brush colorv lid (counter + 1) g ::
      strokesFrom brush colorv lid (counter + 1) gs

/-- The single canvas layer after a gesture sequence on a fresh engine. -/
def stateLayer (t0 : ℕ) (gs : List StrokeSpec) : Layer :=
  { defaultLayer t0 with
    strokes := strokesFrom defaultBrush "#000000" (defaultLayer t0).id 0 gs }

/-- The history snapshots a gesture sequence pushes on a fresh engine
(entry `i` captures the canvas before stroke `i + 1`). -/
def snapList (t0 : ℕ) (gs : List StrokeSpec) : List CanvasState :=
  (List.range gs.length).map (fun i =>
    { layers := deepCopyLayers [stateLayer t0 (gs.take i)]
      activeLayerId := (defaultLayer t0).id
      timestamp := (gs.getD i default).now })

/-- Closed form of the engine state after a gesture sequence on a fresh
engine. -/
def expectedState (t0 : ℕ) (gs : List StrokeSpec) : EngineState :=
  { initEngine t0 with
    layers := [stateLayer t0 gs]
    history := (snapList t0 gs).drop (gs.length - 50)
    historyIndex := ((min gs.length 50 : ℕ) : ℤ) - 1
    strokeIdCounter := gs.length }

/-- The engine state right after `startStroke` begins the gesture `g` on
top of `expectedState t0 gs` (before its `saveState` call). -/
def startedState (t0 : ℕ) (gs : List StrokeSpec) (g : StrokeSpec) :
    EngineState :=
  { expectedState t0 gs with
    currentStroke := some (initialStroke g.now (gs.length + 1)
      defaultBrush "#000000" (defaultLayer t0).id g.first)
    isDrawing := true
    strokeIdCounter := gs.length + 1 }

/-- The in-progress stroke after all `addStrokePoint` calls of gesture
`g`. -/
def grownStroke (t0 : ℕ) (gs : List StrokeSpec) (g : StrokeSpec) : Stroke :=
  g.rest.foldl (addPointToStroke defaultBrush)
    (initialStroke g.now (gs.length + 1) defaultBrush "#000000"
      (defaultLayer t0).id g.first)

/-- Iterated `undo`. -/
def undoN : ℕ → EngineState → EngineState
  | 0, s => s
  | n + 1, s => undoN n (undo s).1

/-- Iterated `redo`. -/
def redoN : ℕ → EngineState → EngineState
  | 0, s => s
  | n + 1, s => redoN n (redo s).1

/-- The state after N completed strokes, N `undo` calls, and N `redo`
calls on a fresh engine. -/
def roundTrip (t0 : ℕ) (gs : List StrokeSpec) : EngineState :=
  redoN gs.length (undoN gs.length (runStrokes (initEngine t0) gs))

/-- Strip the derived `path`/`paint` caches from a stroke, for comparing
states modulo derived geometry. -/
def eraseDerivedStroke (st : Stroke) : Stroke :=
  { st with path := none, paint := none }

/-- Strip the derived caches from every stroke of every layer. -/
def eraseDerivedLayers (ls : List Layer) : List Layer :=
  ls.map (fun l => { l with strokes := l.strokes.map eraseDerivedStroke })

/-- Remove the most recent stroke of every layer. -/
def dropLastStrokes (ls : List Layer) : List Layer :=
  ls.map (fun l => { l with strokes := l.strokes.dropLast })

/-- The spec's description of the multi-point path body: for consecutive
interior points, a quadratic curve with the earlier point as control point
and their midpoint as endpoint. -/
def quadChain : List Point → List PathCmd
  | a :: b :: rest =>
    PathCmd.quadTo a.x a.y ((a.x + b.x) / 2) ((a.y + b.y) / 2) ::
      quadChain (b :: rest)
  | _ => []

/-- The id list of a layer list. -/
def layerIds (ls : List Layer) : List String :=
  ls.map Layer.id

/-- Inductive invariant of reachable engine states: at least one layer, the
active id names a layer, the history cursor is in range, and every history
entry itself has at least one layer and a valid active id. -/
def Inv (s : EngineState) : Prop :=
  1 ≤ s.layers.length ∧
  s.activeLayerId ∈ layerIds s.layers ∧
  (-1 : ℤ) ≤ s.historyIndex ∧
  s.historyIndex < (s.history.length : ℤ) ∧
  s.history.length ≤ s.maxHistorySize ∧
  s.maxHistorySize = 50 ∧
  ∀ e ∈ s.history,
    1 ≤ e.layers.length ∧ e.activeLayerId ∈ layerIds e.layers

/-- Concrete sample point. -/
def pA : Point := ⟨1, 1, 1 / 2, 1, none, none⟩

/-- Concrete sample point. -/
def pB : Point := ⟨5, 5, 1 / 2, 2, none, none⟩

/-- Two single-point strokes. -/
def gs2 : List StrokeSpec := [⟨1, pA, []⟩, ⟨2, pB, []⟩]

/-- Three single-point strokes. -/
def gs3 : List StrokeSpec := [⟨1, pA, []⟩, ⟨2, pB, []⟩, ⟨3, pA, []⟩]

/-- Sixty single-point strokes. -/
def gs60 : List StrokeSpec := List.replicate 60 ⟨1, pA, []⟩

/-- An engine with one completed stroke and a second stroke in progress
(so the undo precondition `0 < historyIndex` holds while drawing). -/
def c2State : EngineState :=
  startStroke 2 pB (doStroke (initEngine 0) ⟨1, pA, []⟩)

/-- Three strokes, then `setBrushSize 20`, then one `undo`: the restore
rebuilds the surviving single-point stroke with the new active brush. -/
def c3State : EngineState :=
  (undo (setBrushSize 20 (runStrokes (initEngine 0) gs3))).1

/-- The single stroke left on the canvas of `c3State`. -/
def c3Stroke : Stroke :=
  ((c3State.layers.headD default).strokes.headD default)

/-- The default brush with both pressure flags off. -/
def noPressureBrush : BrushSettings :=
  { defaultBrush with pressureSize := false, pressureOpacity := false }

/-- The default brush with a negative base size (installable through the
public `setBrush`, which copies its argument unvalidated). -/
def negBrush : BrushSettings :=
  { defaultBrush with size := -8 }

/-- A two-point stroke used to instantiate general theorems. -/
def twoPointStroke : Stroke :=
  { id := "s1"
    points := [pA, pB]
    brush := defaultBrush
    color := "#000000"
    size := 4
    opacity := 1
    blendMode := BlendMode.srcOver
    path := none
    paint := none
    layerId := "l1"
    timestamp := 0 }

@[simp]
theorem saveState_currentStroke (now : ℕ) (s : EngineState) :
    (saveState now s).currentStroke = s.currentStroke := by
  simp only [saveState]
  split <;> rfl

@[simp]
theorem saveState_isDrawing (now : ℕ) (s : EngineState) :
    (saveState now s).isDrawing = s.isDrawing := by
  simp only [saveState]
  split <;> rfl

@[simp]
theorem saveState_layers (now : ℕ) (s : EngineState) :
    (saveState now s).layers = s.layers := by
  simp only [saveState]
  split <;> rfl

@[simp]
theorem saveState_activeLayerId (now : ℕ) (s : EngineState) :
    (saveState now s).activeLayerId = s.activeLayerId := by
  simp only [saveState]
  split <;> rfl

@[simp]
theorem saveState_activeBrush (now : ℕ) (s : EngineState) :
    (saveState now s).activeBrush = s.activeBrush := by
  simp only [saveState]
  split <;> rfl

@[simp]
theorem saveState_activeColor (now : ℕ) (s : EngineState) :
    (saveState now s).activeColor = s.activeColor := by
  simp only [saveState]
  split <;> rfl

@[simp]
theorem saveState_strokeIdCounter (now : ℕ) (s : EngineState) :
    (saveState now s).strokeIdCounter = s.strokeIdCounter := by
  simp only [saveState]
  split <;> rfl

@[simp]
theorem saveState_maxHistorySize (now : ℕ) (s : EngineState) :
    (saveState now s).maxHistorySize = s.maxHistorySize := by
  simp only [saveState]
  split <;> rfl

@[simp]
theorem saveState_canvasWidth (now : ℕ) (s : EngineState) :
    (saveState now s).canvasWidth = s.canvasWidth := by
  simp only [saveState]
  split <;> rfl

@[simp]
theorem saveState_canvasHeight (now : ℕ) (s : EngineState) :
    (saveState now s).canvasHeight = s.canvasHeight := by
  simp only [saveState]
  split <;> rfl

@[simp]
theorem saveState_backgroundColor (now : ℕ) (s : EngineState) :
    (saveState now s).backgroundColor = s.backgroundColor := by
  simp only [saveState]
  split <;> rfl

@[simp]
theorem saveState_layerIdCounter (now : ℕ) (s : EngineState) :
    (saveState now s).layerIdCounter = s.layerIdCounter := by
  simp only [saveState]
  split <;> rfl

/-- C2, corrected.  The claim asserts that a successful `undo`/`redo`
cancels an in-progress stroke and returns the engine to the idle state; in
the source neither `undo`, `redo` nor `restoreState` touches
`currentStroke` or `isDrawing`, so both fields survive every `undo`/`redo`
call unchanged (the engine stays in the Drawing state). -/
theorem claim2_thm (s : EngineState) :
    (undo s).1.isDrawing = s.isDrawing ∧
    (undo s).1.currentStroke = s.currentStroke ∧
    (redo s).1.isDrawing = s.isDrawing ∧
    (redo s).1.currentStroke = s.currentStroke := by
  unfold undo redo restoreState
  refine ⟨?_, ?_, ?_, ?_⟩ <;> (split <;> rfl)

/-- C2 counterexample: an engine with one finished stroke and a second
stroke in progress; `undo` succeeds but the engine is still drawing and
still holds the in-progress stroke afterwards. -/
theorem claim2_counterexample :
    (undo c2State).2 = true ∧
    c2State.isDrawing = true ∧
    (undo c2State).1.isDrawing = true ∧
    (undo c2State).1.currentStroke.isSome = true := by
  with_unfolding_all decide

/-- C3, corrected.  `renderPaint` is rebuilt purely from the stroke's own
fields, and for strokes with at least two points the rebuilt `renderPath`
is independent of the engine's current active brush; the single-point
branch of `createPath`, however, reads the current `activeBrush.size`
instead of the stroke's snapshot, so single-point strokes are exempt (see
the counterexample). -/
theorem claim3_thm (b1 b2 : BrushSettings) (st : Stroke) :
    (rebuildStroke b1 st).paint = (rebuildStroke b2 st).paint ∧
    (2 ≤ st.points.length → rebuildStroke b1 st = rebuildStroke b2 st) := by
  constructor
  · unfold rebuildStroke
    split <;> rfl
  · intro h2
    have hpath : createPath b1.size st.points =
        createPath b2.size st.points := by
      unfold createPath
      rw [if_neg (by omega), if_neg (by omega), if_neg (by omega),
        if_neg (by omega)]
    unfold rebuildStroke
    rw [hpath]

/-- C3 counterexample: after three strokes, `setBrushSize 20`, and one
`undo`, the restored single-point stroke carries brush snapshot size `8`
but its rebuilt path is a circle of radius `10` (from the current active
brush), which is not what rebuilding from its own fields yields. -/
theorem claim3_counterexample :
    c3Stroke.brush.size = 8 ∧
    c3Stroke.points = [pA] ∧
    c3Stroke.path = some [PathCmd.addCircle 1 1 10] ∧
    some (createPath c3Stroke.brush.size c3Stroke.points) ≠ c3Stroke.path := by
  with_unfolding_all decide

/-- C3 witness: the amended theorem applied to a concrete two-point stroke
and two brushes that differ in size. -/
theorem claim3_witness :
    (rebuildStroke defaultBrush twoPointStroke).paint =
      (rebuildStroke negBrush twoPointStroke).paint ∧
    rebuildStroke defaultBrush twoPointStroke =
      rebuildStroke negBrush twoPointStroke :=
  ⟨(claim3_thm defaultBrush negBrush twoPointStroke).1,
    (claim3_thm defaultBrush negBrush twoPointStroke).2 (by decide)⟩

/-- C4, corrected.  With the pressure flag off, the base value is returned
unchanged; with it on, the result is `base/10 + (9/10)*base*pressure` for
the RAW pressure — the source never clamps pressure to `[0,1]` (the claim's
clamped formula fails at pressure `2`, see the counterexample).  The stated
endpoints hold, and the function is non-decreasing provided the base is
non-negative (a negative base, installable via `setBrush`, makes it
decreasing). -/
theorem claim4_thm (b : BrushSettings) (p : ℚ) :
    (b.pressureSize = false → calculateBrushSize b p = b.size) ∧
    (b.pressureOpacity = false → calculateBrushOpacity b p = b.opacity) ∧
    (b.pressureSize = true →
      calculateBrushSize b p =
        b.size * (1 / 10) + b.size * (9 / 10) * p) ∧
    (b.pressureOpacity = true →
      calculateBrushOpacity b p =
        b.opacity * (1 / 10) + b.opacity * (9 / 10) * p) ∧
    (b.pressureSize = true →
      calculateBrushSize b 0 = b.size * (1 / 10) ∧
      calculateBrushSize b 1 = b.size) ∧
    (∀ q, b.pressureSize = true → 0 ≤ b.size → p ≤ q →
      calculateBrushSize b p ≤ calculateBrushSize b q) := by
  refine ⟨?_, ?_, ?_, ?_, ?_, ?_⟩
  · intro h
    simp [calculateBrushSize, h]
  · intro h
    simp [calculateBrushOpacity, h]
  · intro h
    simp only [calculateBrushSize, h, Bool.true_eq_false, if_false]
    ring
  · intro h
    simp only [calculateBrushOpacity, h, Bool.true_eq_false, if_false]
    ring
  · intro h
    constructor <;>
      (simp only [calculateBrushSize, h, Bool.true_eq_false, if_false]; ring)
  · intro q h hb hpq
    simp only [calculateBrushSize, h, Bool.true_eq_false, if_false]
    nlinarith [mul_nonneg (by linarith : (0 : ℚ) ≤ b.size * (9 / 10))
      (by linarith : (0 : ℚ) ≤ q - p)]

/-- C4 counterexample: at pressure `2` (no clamping in the source) the
default brush yields `76/5`, not the claimed clamped value `8`; and with a
negative base size the function is strictly decreasing, refuting
unconditional monotonicity. -/
theorem claim4_counterexample :
    calculateBrushSize defaultBrush 2 = 76 / 5 ∧
    defaultBrush.size * (1 / 10) + defaultBrush.size * (9 / 10) * 1 = 8 ∧
    (76 / 5 : ℚ) ≠ 8 ∧
    calculateBrushSize negBrush 1 < calculateBrushSize negBrush 0 := by
  refine ⟨by norm_num [calculateBrushSize, defaultBrush],
    by norm_num [defaultBrush], by norm_num,
    by norm_num [calculateBrushSize, negBrush, defaultBrush]⟩

/-- C4 witness: the amended theorem applied at concrete brushes and
pressures, one instance per conjunct. -/
theorem claim4_witness :
    calculateBrushSize noPressureBrush (1 / 2) = noPressureBrush.size ∧
    calculateBrushOpacity noPressureBrush (1 / 2) = noPressureBrush.opacity ∧
    calculateBrushSize defaultBrush (1 / 2) =
      defaultBrush.size * (1 / 10) + defaultBrush.size * (9 / 10) * (1 / 2) ∧
    calculateBrushOpacity defaultBrush (1 / 2) =
      defaultBrush.opacity * (1 / 10) +
        defaultBrush.opacity * (9 / 10) * (1 / 2) ∧
    (calculateBrushSize defaultBrush 0 = defaultBrush.size * (1 / 10) ∧
      calculateBrushSize defaultBrush 1 = defaultBrush.size) ∧
    calculateBrushSize defaultBrush (1 / 2) ≤
      calculateBrushSize defaultBrush 1 :=
  ⟨(claim4_thm noPressureBrush (1 / 2)).1 rfl,
    (claim4_thm noPressureBrush (1 / 2)).2.1 rfl,
    (claim4_thm defaultBrush (1 / 2)).2.2.1 rfl,
    (claim4_thm defaultBrush (1 / 2)).2.2.2.1 rfl,
    (claim4_thm defaultBrush (1 / 2)).2.2.2.2.1 rfl,
    (claim4_thm defaultBrush (1 / 2)).2.2.2.2.2 1 rfl (by norm_num [defaultBrush])
      (by norm_num)⟩

/-- C5, corrected.  A single-point stroke's built path is a filled circle
centered at the point, but its radius is half the active brush's BASE size
(`activeBrush.size / 2`), not half the stroke's pressure-adjusted width;
path construction is a total function, so it never throws. -/
theorem claim5_thm :
    (∀ (sz : ℚ) (q : Point),
      createPath sz [q] = [PathCmd.addCircle q.x q.y (sz / 2)]) ∧
    ∀ (s : EngineState) (now : ℕ) (p : Point) (L : Layer),
      s.isDrawing = false → getActiveLayer s = some L → L.locked = false →
      ∃ st, (startStroke now p s).currentStroke = some st ∧
        st.points = [p] ∧
        st.path = some [PathCmd.addCircle p.x p.y (s.activeBrush.size / 2)] := by
  have hone : ∀ (sz : ℚ) (q : Point),
      createPath sz [q] = [PathCmd.addCircle q.x q.y (sz / 2)] := by
    intro sz q
    rfl
  refine ⟨hone, ?_⟩
  intro s now p L h1 h2 h3
  refine ⟨initialStroke now (s.strokeIdCounter + 1) s.activeBrush
    s.activeColor s.activeLayerId p, ?_, rfl, ?_⟩
  · unfold startStroke
    rw [h1, h2]
    simp [h3]
  · unfold initialStroke
    simp [hone]

/-- C5 counterexample: with the default pressure-sensitive brush and
pressure `1/2`, the stroke's computed width is `22/5`, yet the built
circle has radius `4 = 8/2` (half the base size), not `11/5`. -/
theorem claim5_counterexample :
    ((startStroke 1 pA (initEngine 0)).currentStroke.map Stroke.size) =
      some (22 / 5) ∧
    ((startStroke 1 pA (initEngine 0)).currentStroke.bind Stroke.path) =
      some [PathCmd.addCircle 1 1 4] ∧
    (4 : ℚ) ≠ (22 / 5) / 2 := by
  refine ⟨by with_unfolding_all decide, by with_unfolding_all decide,
    by norm_num⟩

/-- C5 witness: the amended theorem applied to a fresh engine (active layer
present and unlocked) and the concrete point `pA`. -/
theorem claim5_witness :
    ∃ st, (startStroke 1 pA (initEngine 0)).currentStroke = some st ∧
      st.points = [pA] ∧
      st.path = some [PathCmd.addCircle pA.x pA.y
        ((initEngine 0).activeBrush.size / 2)] :=
  claim5_thm.2 (initEngine 0) 1 pA (defaultLayer 0) rfl (by with_unfolding_all decide) rfl

theorem midQuadCmd_cons (p : Point) (l : List Point) (i : ℕ) :
    midQuadCmd (p :: l) (i + 1) = midQuadCmd l i := by
  simp [midQuadCmd, List.getD_cons_succ]

theorem midQuad_range_eq_quadChain (tail : List Point) :
    ∀ p0 : Point,
      (List.range (tail.length - 1)).map
        (fun j => midQuadCmd (p0 :: tail) (j + 1)) = quadChain tail := by
  induction tail with
  | nil => intro p0; rfl
  | cons a t ih =>
    intro p0
    cases t with
    | nil => rfl
    | cons b rest =>
      have hlen : (a :: b :: rest).length - 1 = rest.length + 1 := by simp
      rw [hlen, List.range_succ_eq_map, List.map_cons, List.map_map]
      have hfun :
          ((fun j => midQuadCmd (p0 :: a :: b :: rest) (j + 1)) ∘ Nat.succ) =
            fun j => midQuadCmd (a :: b :: rest) (j + 1) := by
        funext j
        show midQuadCmd (p0 :: a :: b :: rest) (j + 1 + 1) =
          midQuadCmd (a :: b :: rest) (j + 1)
        rw [midQuadCmd_cons]
      rw [hfun]
      have hlen2 : rest.length = (b :: rest).length - 1 := by simp
      rw [show quadChain (a :: b :: rest) =
          midQuadCmd (a :: b :: rest) 0 :: quadChain (b :: rest) from rfl]
      rw [show midQuadCmd (p0 :: a :: b :: rest) (0 + 1) =
          midQuadCmd (a :: b :: rest) 0 from midQuadCmd_cons p0 _ 0]
      rw [hlen2, ih a]

theorem getLastD_irrel (l : List Point) (h : l ≠ []) (d d' : Point) :
    l.getLastD d = l.getLastD d' := by
  cases l with
  | nil => exact absurd rfl h
  | cons a t => rfl

theorem getD_length_sub_one (l : List Point) (d : Point) (h : l ≠ []) :
    l.getD (l.length - 1) d = l.getLastD d := by
  induction l with
  | nil => exact absurd rfl h
  | cons a t ih =>
    cases t with
    | nil => rfl
    | cons b r =>
      have h1 : (a :: b :: r).length - 1 = (b :: r).length - 1 + 1 := by simp
      rw [h1, List.getD_cons_succ, ih (by simp)]
      exact getLastD_irrel (b :: r) (by simp) d a

/-- C6, confirmed.  `createPath` (indexed-loop form translated from the
source) produces: the empty path for 0 points; a single straight segment
for 2 points; and for 3 or more points a move to point 0, the quadratic
chain with control point `points[i]` and midpoint endpoints for every
interior index, then a straight segment to the last point (`quadChain` is
the spec's recursive description of that loop). -/
theorem claim6_thm (sz : ℚ) (pts : List Point) :
    (pts = [] → createPath sz pts = []) ∧
    (∀ p q, pts = [p, q] →
      createPath sz pts =
        [PathCmd.moveTo p.x p.y, PathCmd.lineTo q.x q.y]) ∧
    (∀ p0 tail, pts = p0 :: tail → 2 ≤ tail.length →
      createPath sz pts =
        PathCmd.moveTo p0.x p0.y ::
          (quadChain tail ++
            [PathCmd.lineTo (tail.getLastD default).x
              (tail.getLastD default).y])) := by
  refine ⟨?_, ?_, ?_⟩
  · intro h
    subst h
    rfl
  · intro p q h
    subst h
    rfl
  · intro p0 tail h hlen
    subst h
    have h0 : ¬((p0 :: tail).length = 0) := by simp
    have h1 : ¬((p0 :: tail).length = 1) := by
      simp only [List.length_cons]
      omega
    unfold createPath
    rw [if_neg h0, if_neg h1]
    have hmids : (p0 :: tail).length - 2 = tail.length - 1 := by simp
    rw [hmids, midQuad_range_eq_quadChain tail p0]
    have hne : tail ≠ [] := by
      intro hc
      rw [hc] at hlen
      simp at hlen
    have hlast : (p0 :: tail).getD ((p0 :: tail).length - 1) default =
        tail.getLastD default := by
      have h2 : (p0 :: tail).length - 1 = (tail.length - 1) + 1 := by
        simp
        omega
      rw [h2, List.getD_cons_succ, getD_length_sub_one tail default hne]
    rw [hlast]
    rfl

/-- C6 witness: the three cases of the theorem instantiated on concrete
point lists (empty, two points, four points). -/
theorem claim6_witness :
    createPath 8 [] = [] ∧
    createPath 8 [pA, pB] =
      [PathCmd.moveTo pA.x pA.y, PathCmd.lineTo pB.x pB.y] ∧
    createPath 8 [pA, pB, pA, pB] =
      PathCmd.moveTo pA.x pA.y ::
        (quadChain [pB, pA, pB] ++
          [PathCmd.lineTo ([pB, pA, pB].getLastD default).x
            ([pB, pA, pB].getLastD default).y]) :=
  ⟨(claim6_thm 8 []).1 rfl,
    (claim6_thm 8 [pA, pB]).2.1 pA pB rfl,
    (claim6_thm 8 [pA, pB, pA, pB]).2.2 pA [pB, pA, pB] rfl
      (by norm_num)⟩

theorem layerIds_deepCopyLayers (ls : List Layer) :
    layerIds (deepCopyLayers ls) = layerIds ls := by
  unfold layerIds deepCopyLayers
  rw [List.map_map]
  congr 1

@[simp]
theorem length_deepCopyLayers (ls : List Layer) :
    (deepCopyLayers ls).length = ls.length := by
  simp [deepCopyLayers]

theorem layerIds_map_rebuildLayer (b : BrushSettings) (ls : List Layer) :
    layerIds (ls.map (rebuildLayer b)) = layerIds ls := by
  unfold layerIds rebuildLayer
  rw [List.map_map]
  congr 1

theorem layerIds_updateFirstLayer (lid : String) (f : Layer → Layer)
    (hf : ∀ l, (f l).id = l.id) (ls : List Layer) :
    layerIds (updateFirstLayer lid f ls) = layerIds ls := by
  induction ls with
  | nil => rfl
  | cons l t ih =>
    unfold updateFirstLayer
    split
    · simp [layerIds, hf l]
    · simpa [layerIds] using ih

theorem length_updateFirstLayer (lid : String) (f : Layer → Layer)
    (ls : List Layer) :
    (updateFirstLayer lid f ls).length = ls.length := by
  induction ls with
  | nil => rfl
  | cons l t ih =>
    unfold updateFirstLayer
    split
    · simp
    · simpa using ih

theorem layerIds_pushStrokeToLayer (lid : String) (st : Stroke)
    (ls : List Layer) :
    layerIds (pushStrokeToLayer lid st ls) = layerIds ls := by
  induction ls with
  | nil => rfl
  | cons l t ih =>
    unfold pushStrokeToLayer
    split
    · simp [layerIds]
    · simpa [layerIds] using ih

theorem length_pushStrokeToLayer (lid : String) (st : Stroke)
    (ls : List Layer) :
    (pushStrokeToLayer lid st ls).length = ls.length := by
  induction ls with
  | nil => rfl
  | cons l t ih =>
    unfold pushStrokeToLayer
    split
    · simp
    · simpa using ih

theorem length_eraseP_ge (p : Layer → Bool) (ls : List Layer) :
    ls.length - 1 ≤ (ls.eraseP p).length := by
  induction ls with
  | nil => simp
  | cons l t ih =>
    rw [List.eraseP_cons]
    cases hp : p l
    · simp only [cond_false, List.length_cons]
      omega
    · simp only [cond_true, List.length_cons]
      omega

theorem mem_layerIds_eraseP (ls : List Layer) (lid A : String)
    (hA : A ∈ layerIds ls) (hne : A ≠ lid) :
    A ∈ layerIds (ls.eraseP (fun l => l.id == lid)) := by
  induction ls with
  | nil => simpa [layerIds] using hA
  | cons l t ih =>
    rw [List.eraseP_cons]
    rcases (by simpa [layerIds] using hA : A = l.id ∨ A ∈ layerIds t) with
      h | h
    · have hlne : (l.id == lid) = false := by
        simp only [beq_eq_false_iff_ne, ne_eq]
        rw [← h]
        exact hne
      rw [hlne, cond_false]
      simp [layerIds, h]
    · cases hc : (l.id == lid)
      · rw [cond_false]
        simpa [layerIds] using Or.inr (ih h)
      · rw [cond_true]
        exact h

theorem mem_layerIds_of_find? (ls : List Layer) (lid : String)
    (h : (ls.find? (fun l => l.id == lid)).isSome) :
    lid ∈ layerIds ls := by
  rw [List.find?_isSome] at h
  rcases h with ⟨l, hl, hp⟩
  have : l.id = lid := by simpa using hp
  exact this ▸ List.mem_map_of_mem Layer.id hl

theorem getActiveLayer_isSome_of_mem (s : EngineState)
    (h : s.activeLayerId ∈ layerIds s.layers) :
    (getActiveLayer s).isSome := by
  rw [getActiveLayer, List.find?_isSome]
  rcases List.mem_map.mp h with ⟨l, hl, hid⟩
  exact ⟨l, hl, by simpa using hid⟩

theorem layerIds_map_of_id (g : Layer → Layer)
    (hg : ∀ l, (g l).id = l.id) (ls : List Layer) :
    layerIds (ls.map g) = layerIds ls := by
  unfold layerIds
  rw [List.map_map]
  congr 1
  funext l
  exact hg l

theorem getD_mem_of_lt {α : Type} [Inhabited α] (l : List α) (i : ℕ)
    (h : i < l.length) (d : α) : l.getD i d ∈ l := by
  rw [List.getD_eq_getElem?_getD, List.getElem?_eq_getElem h]
  exact List.getElem_mem h

theorem inv_saveState (now : ℕ) (s : EngineState) (h : Inv s) :
    Inv (saveState now s) := by
  obtain ⟨h1, h2, h3, h4, h5, h6, h7⟩ := h
  have hT : ((s.historyIndex + 1).toNat : ℤ) = s.historyIndex + 1 := by
    omega
  have hTle : (s.historyIndex + 1).toNat ≤ s.history.length := by
    omega
  have htrim : (s.history.take (s.historyIndex + 1).toNat).length =
      (s.historyIndex + 1).toNat := by
    rw [List.length_take]
    omega
  have hlenf : (s.history.take (s.historyIndex + 1).toNat ++
      [(⟨deepCopyLayers s.layers, s.activeLayerId, now⟩ : CanvasState)]).length =
      (s.historyIndex + 1).toNat + 1 := by
    simp [htrim]
  have hmemtrim : ∀ e ∈ s.history.take (s.historyIndex + 1).toNat ++
      [(⟨deepCopyLayers s.layers, s.activeLayerId, now⟩ : CanvasState)],
      1 ≤ e.layers.length ∧ e.activeLayerId ∈ layerIds e.layers := by
    intro e he
    rcases List.mem_append.mp he with he | he
    · exact h7 e (List.take_subset _ _ he)
    · have he2 : e = ⟨deepCopyLayers s.layers, s.activeLayerId, now⟩ := by
        simpa using he
      subst he2
      refine ⟨by simpa using h1, ?_⟩
      show s.activeLayerId ∈ layerIds (deepCopyLayers s.layers)
      rw [layerIds_deepCopyLayers]
      exact h2
  simp only [saveState]
  split
  case isTrue hc =>
    rw [hlenf] at hc
    refine ⟨h1, h2, ?_, ?_, ?_, h6, ?_⟩
    · show (-1 : ℤ) ≤ s.historyIndex + 1 - 1
      omega
    · show s.historyIndex + 1 - 1 <
        ((List.drop 1 (s.history.take (s.historyIndex + 1).toNat ++
          [(⟨deepCopyLayers s.layers, s.activeLayerId, now⟩ :
            CanvasState)])).length : ℤ)
      rw [List.length_drop, hlenf]
      omega
    · show (List.drop 1 (s.history.take (s.historyIndex + 1).toNat ++
        [(⟨deepCopyLayers s.layers, s.activeLayerId, now⟩ :
          CanvasState)])).length ≤ s.maxHistorySize
      rw [List.length_drop, hlenf]
      omega
    · intro e he
      exact hmemtrim e (List.drop_subset _ _ he)
  case isFalse hc =>
    rw [hlenf] at hc
    refine ⟨h1, h2, ?_, ?_, ?_, h6, hmemtrim⟩
    · show (-1 : ℤ) ≤ s.historyIndex + 1
      omega
    · show s.historyIndex + 1 <
        ((s.history.take (s.historyIndex + 1).toNat ++
          [(⟨deepCopyLayers s.layers, s.activeLayerId, now⟩ :
            CanvasState)]).length : ℤ)
      rw [hlenf]
      omega
    · show (s.history.take (s.historyIndex + 1).toNat ++
        [(⟨deepCopyLayers s.layers, s.activeLayerId, now⟩ :
          CanvasState)]).length ≤ s.maxHistorySize
      rw [hlenf]
      omega

theorem inv_startStroke (now : ℕ) (p : Point) (s : EngineState)
    (h : Inv s) : Inv (startStroke now p s) := by
  unfold startStroke
  cases hd : s.isDrawing
  · simp only [hd, Bool.false_eq_true, if_false]
    rcases hga : getActiveLayer s with _ | L
    · simp only [hga]
      exact h
    · simp only [hga]
      cases hl : L.locked
      · simp only [hl, Bool.false_eq_true, if_false]
        exact inv_saveState now _ h
      · simp only [hl, if_true]
        exact h
  · simp only [hd, if_true]
    exact h

theorem inv_addStrokePoint (p : Point) (s : EngineState) (h : Inv s) :
    Inv (addStrokePoint p s) := by
  unfold addStrokePoint
  split
  · exact h
  · rcases s.currentStroke with _ | cur
    · exact h
    · exact h

theorem inv_endStroke (s : EngineState) (h : Inv s) :
    Inv (endStroke s) := by
  obtain ⟨h1, h2, h3, h4, h5, h6, h7⟩ := h
  unfold endStroke
  split
  · exact ⟨h1, h2, h3, h4, h5, h6, h7⟩
  · rcases s.currentStroke with _ | cur
    · exact ⟨h1, h2, h3, h4, h5, h6, h7⟩
    · rcases getActiveLayer s with _ | L
      · exact ⟨h1, h2, h3, h4, h5, h6, h7⟩
      · refine ⟨?_, ?_, h3, h4, h5, h6, h7⟩
        · rw [length_pushStrokeToLayer]
          exact h1
        · show s.activeLayerId ∈
            layerIds (pushStrokeToLayer s.activeLayerId _ s.layers)
          rw [layerIds_pushStrokeToLayer]
          exact h2

theorem inv_undo (s : EngineState) (h : Inv s) : Inv (undo s).1 := by
  obtain ⟨h1, h2, h3, h4, h5, h6, h7⟩ := h
  unfold undo
  split
  · exact ⟨h1, h2, h3, h4, h5, h6, h7⟩
  case isFalse hc =>
    have hlt : (s.historyIndex - 1).toNat < s.history.length := by omega
    have hmem := getD_mem_of_lt s.history (s.historyIndex - 1).toNat hlt
      default
    obtain ⟨he1, he2⟩ := h7 _ hmem
    unfold restoreState
    refine ⟨?_, ?_, ?_, ?_, h5, h6, h7⟩
    · show 1 ≤ ((deepCopyLayers
        (s.history.getD (s.historyIndex - 1).toNat default).layers).map
          (rebuildLayer s.activeBrush)).length
      simp only [List.length_map, length_deepCopyLayers]
      exact he1
    · show (s.history.getD (s.historyIndex - 1).toNat default).activeLayerId ∈
        layerIds ((deepCopyLayers
          (s.history.getD (s.historyIndex - 1).toNat default).layers).map
            (rebuildLayer s.activeBrush))
      rw [layerIds_map_rebuildLayer, layerIds_deepCopyLayers]
      exact he2
    · show (-1 : ℤ) ≤ s.historyIndex - 1
      omega
    · show s.historyIndex - 1 < (s.history.length : ℤ)
      omega

theorem inv_redo (s : EngineState) (h : Inv s) : Inv (redo s).1 := by
  obtain ⟨h1, h2, h3, h4, h5, h6, h7⟩ := h
  unfold redo
  split
  · exact ⟨h1, h2, h3, h4, h5, h6, h7⟩
  case isFalse hc =>
    have hlt : (s.historyIndex + 1).toNat < s.history.length := by omega
    have hmem := getD_mem_of_lt s.history (s.historyIndex + 1).toNat hlt
      default
    obtain ⟨he1, he2⟩ := h7 _ hmem
    unfold restoreState
    refine ⟨?_, ?_, ?_, ?_, h5, h6, h7⟩
    · show 1 ≤ ((deepCopyLayers
        (s.history.getD (s.historyIndex + 1).toNat default).layers).map
          (rebuildLayer s.activeBrush)).length
      simp only [List.length_map, length_deepCopyLayers]
      exact he1
    · show (s.history.getD (s.historyIndex + 1).toNat default).activeLayerId ∈
        layerIds ((deepCopyLayers
          (s.history.getD (s.historyIndex + 1).toNat default).layers).map
            (rebuildLayer s.activeBrush))
      rw [layerIds_map_rebuildLayer, layerIds_deepCopyLayers]
      exact he2
    · show (-1 : ℤ) ≤ s.historyIndex + 1
      omega
    · show s.historyIndex + 1 < (s.history.length : ℤ)
      omega

theorem layerIds_append (a b : List Layer) :
    layerIds (a ++ b) = layerIds a ++ layerIds b := by
  unfold layerIds
  exact List.map_append Layer.id a b

theorem inv_createLayer (now : ℕ) (name : Option String)
    (s : EngineState) (h : Inv s) : Inv (createLayer now name s).1 := by
  obtain ⟨h1, h2, h3, h4, h5, h6, h7⟩ := h
  unfold createLayer
  refine ⟨?_, ?_, h3, h4, h5, h6, h7⟩
  · simp only [List.length_append]
    omega
  · show s.activeLayerId ∈ layerIds (s.layers ++ _)
    rw [layerIds_append]
    exact List.mem_append_left _ h2

theorem inv_deleteLayer (lid : String) (s : EngineState) (h : Inv s) :
    Inv (deleteLayer lid s).1 := by
  obtain ⟨h1, h2, h3, h4, h5, h6, h7⟩ := h
  unfold deleteLayer
  split
  · exact ⟨h1, h2, h3, h4, h5, h6, h7⟩
  case isFalse hgt =>
    split
    · exact ⟨h1, h2, h3, h4, h5, h6, h7⟩
    case isFalse hfound =>
      have hlen2 : 2 ≤ s.layers.length := by omega
      have hlen1 : 1 ≤ (s.layers.eraseP (fun l => l.id == lid)).length := by
        have := length_eraseP_ge (fun l => l.id == lid) s.layers
        omega
      refine ⟨hlen1, ?_, h3, h4, h5, h6, h7⟩
      cases hac : (s.activeLayerId == lid)
      · simp only [hac, Bool.false_eq_true, if_false]
        exact mem_layerIds_eraseP s.layers lid s.activeLayerId h2
          (by simpa using hac)
      · simp only [hac, if_true]
        rcases hcons : s.layers.eraseP (fun l => l.id == lid) with _ | ⟨l0, t⟩
        · rw [hcons] at hlen1
          simp at hlen1
        · rw [hcons]
          simp [layerIds]

theorem inv_setActiveLayer (lid : String) (s : EngineState) (h : Inv s) :
    Inv (setActiveLayer lid s).1 := by
  obtain ⟨h1, h2, h3, h4, h5, h6, h7⟩ := h
  unfold setActiveLayer
  split
  case isTrue hc => exact ⟨h1, mem_layerIds_of_find? _ _ hc, h3, h4, h5, h6, h7⟩
  case isFalse hc => exact ⟨h1, h2, h3, h4, h5, h6, h7⟩

theorem inv_setLayerOpacity (lid : String) (v : ℚ) (s : EngineState)
    (h : Inv s) : Inv (setLayerOpacity lid v s).1 := by
  obtain ⟨h1, h2, h3, h4, h5, h6, h7⟩ := h
  unfold setLayerOpacity
  split
  · refine ⟨?_, ?_, h3, h4, h5, h6, h7⟩
    · rw [length_updateFirstLayer]
      exact h1
    · show s.activeLayerId ∈ layerIds (updateFirstLayer lid _ s.layers)
      rw [layerIds_updateFirstLayer lid]
      · exact h2
      · intro l
        rfl
  · exact ⟨h1, h2, h3, h4, h5, h6, h7⟩

theorem inv_setLayerVisibility (lid : String) (b : Bool) (s : EngineState)
    (h : Inv s) : Inv (setLayerVisibility lid b s).1 := by
  obtain ⟨h1, h2, h3, h4, h5, h6, h7⟩ := h
  unfold setLayerVisibility
  split
  · refine ⟨?_, ?_, h3, h4, h5, h6, h7⟩
    · rw [length_updateFirstLayer]
      exact h1
    · show s.activeLayerId ∈ layerIds (updateFirstLayer lid _ s.layers)
      rw [layerIds_updateFirstLayer lid]
      · exact h2
      · intro l
        rfl
  · exact ⟨h1, h2, h3, h4, h5, h6, h7⟩

theorem inv_clearCanvas (now : ℕ) (s : EngineState) (h : Inv s) :
    Inv (clearCanvas now s) := by
  obtain ⟨h1, h2, h3, h4, h5, h6, h7⟩ := inv_saveState now s h
  unfold clearCanvas
  refine ⟨?_, ?_, h3, h4, h5, h6, h7⟩
  · simp only [List.length_map]
    exact h1
  · show (saveState now s).activeLayerId ∈
      layerIds ((saveState now s).layers.map _)
    rw [layerIds_map_of_id]
    · exact h2
    · intro l
      rfl

theorem inv_clearLayer (now : ℕ) (lid : String) (s : EngineState)
    (h : Inv s) : Inv (clearLayer now lid s).1 := by
  unfold clearLayer
  split
  · obtain ⟨h1, h2, h3, h4, h5, h6, h7⟩ := inv_saveState now s h
    refine ⟨?_, ?_, h3, h4, h5, h6, h7⟩
    · rw [length_updateFirstLayer]
      exact h1
    · show (saveState now s).activeLayerId ∈
        layerIds (updateFirstLayer lid _ (saveState now s).layers)
      rw [layerIds_updateFirstLayer lid]
      · exact h2
      · intro l
        rfl
  · exact h

theorem inv_applyOp (s : EngineState) (o : Op) (h : Inv s) :
    Inv (applyOp s o) := by
  cases o with
  | opStartStroke now p => exact inv_startStroke now p s h
  | opAddStrokePoint p => exact inv_addStrokePoint p s h
  | opEndStroke => exact inv_endStroke s h
  | opUndo => exact inv_undo s h
  | opRedo => exact inv_redo s h
  | opCreateLayer now name => exact inv_createLayer now name s h
  | opDeleteLayer lid => exact inv_deleteLayer lid s h
  | opSetActiveLayer lid => exact inv_setActiveLayer lid s h
  | opSetLayerOpacity lid v => exact inv_setLayerOpacity lid v s h
  | opSetLayerVisibility lid b => exact inv_setLayerVisibility lid b s h
  | opSetBrush b => exact h
  | opSetColor c => exact h
  | opSetBrushSize v => exact h
  | opSetBrushOpacity v => exact h
  | opClearCanvas now => exact inv_clearCanvas now s h
  | opClearLayer now lid => exact inv_clearLayer now lid s h
  | opSetCanvasSize w hh => exact h
  | opSetBackgroundColor c => exact h

theorem inv_runOps (ops : List Op) (s : EngineState) (h : Inv s) :
    Inv (runOps s ops) := by
  induction ops generalizing s with
  | nil => exact h
  | cons o t ih => exact ih (applyOp s o) (inv_applyOp s o h)

theorem inv_initEngine (t0 : ℕ) : Inv (initEngine t0) := by
  refine ⟨by simp [initEngine], ?_, by simp [initEngine], ?_, ?_, rfl, ?_⟩
  · show (initEngine t0).activeLayerId ∈ layerIds (initEngine t0).layers
    simp [initEngine, layerIds]
  · show ((-1 : ℤ)) < (([] : List CanvasState).length : ℤ)
    simp
  · show ([] : List CanvasState).length ≤ 50
    simp
  · intro e he
    simp [initEngine] at he

/-- C8, confirmed.  `deleteLayer` on an engine whose layer list has exactly
one layer returns `false` and leaves the whole engine state unchanged, and
after any sequence of public operations from a fresh engine at least one
layer exists. -/
theorem claim8_thm :
    (∀ (s : EngineState) (lid : String), s.layers.length = 1 →
      deleteLayer lid s = (s, false)) ∧
    ∀ (t0 : ℕ) (ops : List Op),
      1 ≤ (runOps (initEngine t0) ops).layers.length := by
  constructor
  · intro s lid h
    unfold deleteLayer
    rw [if_pos (by omega)]
  · intro t0 ops
    exact (inv_runOps ops _ (inv_initEngine t0)).1

/-- C8 witness: deleting the only layer of a fresh engine is a `false`
no-op, and the layer count stays at least one. -/
theorem claim8_witness :
    deleteLayer (defaultLayer 0).id (initEngine 0) = (initEngine 0, false) ∧
    1 ≤ (runOps (initEngine 0)
      [Op.opDeleteLayer (defaultLayer 0).id]).layers.length :=
  ⟨claim8_thm.1 (initEngine 0) (defaultLayer 0).id rfl,
    claim8_thm.2 0 [Op.opDeleteLayer (defaultLayer 0).id]⟩

/-- C10, confirmed.  In every state reachable from construction by public
operations (including deletes of the active layer and undo/redo restores),
the active layer id names a present layer, so `getActiveLayer` never
returns null. -/
theorem claim10_thm (t0 : ℕ) (ops : List Op) :
    (getActiveLayer (runOps (initEngine t0) ops)).isSome = true :=
  getActiveLayer_isSome_of_mem _ (inv_runOps ops _ (inv_initEngine t0)).2.1

theorem saveState_history_getLast? (now : ℕ) (s : EngineState)
    (hmax : 1 ≤ s.maxHistorySize) :
    (saveState now s).history.getLast? =
      some ⟨deepCopyLayers s.layers, s.activeLayerId, now⟩ := by
  simp only [saveState]
  split
  case isTrue hc =>
    rcases htk : s.history.take (s.historyIndex + 1).toNat with _ | ⟨x, t⟩
    · rw [htk] at hc
      simp at hc
      omega
    · simp [List.getLast?_concat]
  case isFalse hc =>
    simp [List.getLast?_concat]

theorem saveState_history_length (now : ℕ) (s : EngineState)
    (hidx : s.historyIndex = (s.history.length : ℤ) - 1)
    (hlen : s.history.length ≤ s.maxHistorySize) :
    (saveState now s).history.length =
      min (s.history.length + 1) s.maxHistorySize := by
  have hT : (s.historyIndex + 1).toNat = s.history.length := by omega
  have htk : s.history.take (s.historyIndex + 1).toNat = s.history := by
    rw [hT]
    exact List.take_length s.history
  simp only [saveState, htk]
  split
  case isTrue hc =>
    simp only [List.length_append, List.length_singleton] at hc ⊢
    rw [List.length_drop]
    simp only [List.length_append, List.length_singleton]
    omega
  case isFalse hc =>
    simp only [List.length_append, List.length_singleton] at hc ⊢
    omega

/-- C9, confirmed.  Every successful `startStroke` pushes exactly one
history entry whose content is the deep copy of the layers and the active
layer id as they were before the stroke (the in-progress stroke is not in
any layer yet, so it is excluded), and `endStroke` leaves the history and
its cursor untouched. -/
theorem claim9_thm :
    (∀ (s : EngineState) (now : ℕ) (p : Point) (L : Layer),
      s.isDrawing = false → getActiveLayer s = some L → L.locked = false →
      1 ≤ s.maxHistorySize →
      (startStroke now p s).history.getLast? =
        some ⟨deepCopyLayers s.layers, s.activeLayerId, now⟩ ∧
      (s.historyIndex = (s.history.length : ℤ) - 1 →
        s.history.length ≤ s.maxHistorySize →
        (startStroke now p s).history.length =
          min (s.history.length + 1) s.maxHistorySize)) ∧
    ∀ s2 : EngineState, (endStroke s2).history = s2.history ∧
      (endStroke s2).historyIndex = s2.historyIndex := by
  constructor
  · intro s now p L h1 h2 h3 hmax
    unfold startStroke
    rw [h1, h2]
    simp only [h3, Bool.false_eq_true, if_false]
    constructor
    · exact saveState_history_getLast? now _ hmax
    · intro hidx hlen
      exact saveState_history_length now _ hidx hlen
  · intro s2
    unfold endStroke
    constructor
    · split
      · rfl
      · rcases s2.currentStroke with _ | cur
        · rfl
        · rcases getActiveLayer s2 with _ | L <;> rfl
    · split
      · rfl
      · rcases s2.currentStroke with _ | cur
        · rfl
        · rcases getActiveLayer s2 with _ | L <;> rfl

/-- C9 witness: on a fresh engine, `startStroke` pushes the snapshot of
the empty default layer and `endStroke` alone never grows the history. -/
theorem claim9_witness :
    (startStroke 1 pA (initEngine 0)).history.getLast? =
      some ⟨deepCopyLayers (initEngine 0).layers,
        (initEngine 0).activeLayerId, 1⟩ ∧
    (startStroke 1 pA (initEngine 0)).history.length =
      min ((initEngine 0).history.length + 1)
        (initEngine 0).maxHistorySize ∧
    (endStroke (initEngine 0)).history = (initEngine 0).history ∧
    (endStroke (initEngine 0)).historyIndex =
      (initEngine 0).historyIndex := by
  have h := claim9_thm.1 (initEngine 0) 1 pA (defaultLayer 0) rfl
    (by with_unfolding_all decide) rfl (by with_unfolding_all decide)
  exact ⟨h.1, h.2 (by with_unfolding_all decide)
    (by with_unfolding_all decide),
    (claim9_thm.2 (initEngine 0)).1, (claim9_thm.2 (initEngine 0)).2⟩

attribute [ext] EngineState

theorem strokesFrom_append (brush : BrushSettings) (colorv lid : String)
    (gs : List StrokeSpec) (g : StrokeSpec) :
    ∀ c : ℕ, strokesFrom brush colorv lid c (gs ++ [g]) =
      strokesFrom brush colorv lid c gs ++
        [strokeOf brush colorv lid (c + gs.length + 1) g] := by
  induction gs with
  | nil =>
    intro c
    simp [strokesFrom]
  | cons a t ih =>
    intro c
    show strokeOf brush colorv lid (c + 1) a ::
        strokesFrom brush colorv lid (c + 1) (t ++ [g]) = _
    rw [ih (c + 1)]
    have harith : c + 1 + t.length + 1 = c + (a :: t).length + 1 := by
      simp only [List.length_cons]
      omega
    rw [harith]
    rfl

theorem snapList_length (t0 : ℕ) (gs : List StrokeSpec) :
    (snapList t0 gs).length = gs.length := by
  simp [snapList]

theorem snapList_concat (t0 : ℕ) (gs : List StrokeSpec) (g : StrokeSpec) :
    snapList t0 (gs ++ [g]) =
      snapList t0 gs ++
        [⟨deepCopyLayers [stateLayer t0 gs], (defaultLayer t0).id,
          g.now⟩] := by
  unfold snapList
  rw [show (gs ++ [g]).length = gs.length + 1 by simp, List.range_succ,
    List.map_append]
  congr 1
  · apply List.map_congr_left
    intro i hi
    have hlt : i < gs.length := List.mem_range.mp hi
    rw [List.take_append_of_le_length (le_of_lt hlt)]
    have : (gs ++ [g]).getD i default = gs.getD i default := by
      rw [List.getD_eq_getElem?_getD, List.getD_eq_getElem?_getD,
        List.getElem?_append_left hlt]
    rw [this]
  · rw [List.map_singleton, List.take_left]
    have : (gs ++ [g]).getD gs.length default = g := by
      rw [List.getD_eq_getElem?_getD,
        List.getElem?_append_right (le_refl _)]
      simp
    rw [this]

theorem expectedState_isDrawing (t0 : ℕ) (gs : List StrokeSpec) :
    (expectedState t0 gs).isDrawing = false := rfl

theorem expectedState_currentStroke (t0 : ℕ) (gs : List StrokeSpec) :
    (expectedState t0 gs).currentStroke = none := rfl

theorem expectedState_activeBrush (t0 : ℕ) (gs : List StrokeSpec) :
    (expectedState t0 gs).activeBrush = defaultBrush := rfl

theorem expectedState_activeColor (t0 : ℕ) (gs : List StrokeSpec) :
    (expectedState t0 gs).activeColor = "#000000" := rfl

theorem expectedState_activeLayerId (t0 : ℕ) (gs : List StrokeSpec) :
    (expectedState t0 gs).activeLayerId = (defaultLayer t0).id := rfl

theorem expectedState_layers (t0 : ℕ) (gs : List StrokeSpec) :
    (expectedState t0 gs).layers = [stateLayer t0 gs] := rfl

theorem expectedState_history (t0 : ℕ) (gs : List StrokeSpec) :
    (expectedState t0 gs).history =
      (snapList t0 gs).drop (gs.length - 50) := rfl

theorem expectedState_historyIndex (t0 : ℕ) (gs : List StrokeSpec) :
    (expectedState t0 gs).historyIndex =
      ((min gs.length 50 : ℕ) : ℤ) - 1 := rfl

theorem expectedState_maxHistorySize (t0 : ℕ) (gs : List StrokeSpec) :
    (expectedState t0 gs).maxHistorySize = 50 := rfl

theorem expectedState_strokeIdCounter (t0 : ℕ) (gs : List StrokeSpec) :
    (expectedState t0 gs).strokeIdCounter = gs.length := rfl

theorem stateLayer_id (t0 : ℕ) (gs : List StrokeSpec) :
    (stateLayer t0 gs).id = (defaultLayer t0).id := rfl

theorem stateLayer_locked (t0 : ℕ) (gs : List StrokeSpec) :
    (stateLayer t0 gs).locked = false := rfl

theorem getActiveLayer_expectedState (t0 : ℕ) (gs : List StrokeSpec) :
    getActiveLayer (expectedState t0 gs) = some (stateLayer t0 gs) := by
  unfold getActiveLayer
  rw [expectedState_layers, expectedState_activeLayerId]
  rw [List.find?_cons_of_pos]
  rw [stateLayer_id]
  exact beq_self_eq_true _

theorem foldl_addStrokePoint (rest : List Point) :
    ∀ (s : EngineState) (st : Stroke), s.isDrawing = true →
      s.currentStroke = some st →
      rest.foldl (fun acc p => addStrokePoint p acc) s =
        { s with currentStroke := some (rest.foldl (addPointToStroke s.activeBrush) st) } := by
  induction rest with
  | nil =>
    intro s st h1 h2
    show s = { s with currentStroke := some st }
    rw [← h2]
  | cons p ps ih =>
    intro s st h1 h2
    show ps.foldl (fun acc p => addStrokePoint p acc)
      (addStrokePoint p s) = _
    have hstep : addStrokePoint p s =
        { s with currentStroke := some (addPointToStroke s.activeBrush st p) } := by
      unfold addStrokePoint
      rw [h1, h2]
      rfl
    rw [hstep,
      ih { s with currentStroke := some (addPointToStroke s.activeBrush st p) }
        (addPointToStroke s.activeBrush st p) h1 rfl]
    rfl

theorem getActiveLayer_of_state (t0 : ℕ) (gs : List StrokeSpec)
    (s : EngineState) (hl : s.layers = [stateLayer t0 gs])
    (ha : s.activeLayerId = (defaultLayer t0).id) :
    getActiveLayer s = some (stateLayer t0 gs) := by
  unfold getActiveLayer
  rw [hl, ha]
  rw [List.find?_cons_of_pos]
  rw [stateLayer_id]
  exact beq_self_eq_true _

theorem saveState_snap (t0 : ℕ) (gs : List StrokeSpec) (g : StrokeSpec)
    (s : EngineState)
    (hh : s.history = (snapList t0 gs).drop (gs.length - 50))
    (hi : s.historyIndex = ((min gs.length 50 : ℕ) : ℤ) - 1)
    (hm : s.maxHistorySize = 50)
    (hl : s.layers = [stateLayer t0 gs])
    (ha : s.activeLayerId = (defaultLayer t0).id) :
    (saveState g.now s).history =
      (snapList t0 (gs ++ [g])).drop (gs.length + 1 - 50) ∧
    (saveState g.now s).historyIndex =
      ((min (gs.length + 1) 50 : ℕ) : ℤ) - 1 := by
  have hlen : s.history.length = min gs.length 50 := by
    rw [hh, List.length_drop, snapList_length]
    omega
  have hT : (s.historyIndex + 1).toNat = min gs.length 50 := by
    rw [hi]
    omega
  have htake : s.history.take (s.historyIndex + 1).toNat = s.history := by
    rw [hT, ← hlen, List.take_length]
  have hsnap : (⟨deepCopyLayers s.layers, s.activeLayerId, g.now⟩ :
        CanvasState) =
      ⟨deepCopyLayers [stateLayer t0 gs], (defaultLayer t0).id, g.now⟩ := by
    rw [hl, ha]
  simp only [saveState, htake, hsnap, hm]
  by_cases hcase : 50 ≤ gs.length
  · have hcond : 50 < (s.history ++
        [(⟨deepCopyLayers [stateLayer t0 gs], (defaultLayer t0).id,
          g.now⟩ : CanvasState)]).length := by
      rw [List.length_append, hlen, List.length_singleton]
      omega
    rw [if_pos hcond]
    constructor
    · show List.drop 1 (s.history ++ _) = _
      rw [hh, List.drop_append_of_le_length
        (by rw [List.length_drop, snapList_length]; omega)]
      rw [List.drop_drop, snapList_concat, List.drop_append_of_le_length
        (by rw [snapList_length]; omega)]
      have harith : gs.length - 50 + 1 = gs.length + 1 - 50 := by omega
      rw [harith]
    · show s.historyIndex + 1 - 1 = _
      rw [hi]
      have h50 : min (gs.length + 1) 50 = 50 := by omega
      have h50b : min gs.length 50 = 50 := by omega
      rw [h50, h50b]
      norm_num
  · have hcond : ¬(50 < (s.history ++
        [(⟨deepCopyLayers [stateLayer t0 gs], (defaultLayer t0).id,
          g.now⟩ : CanvasState)]).length) := by
      rw [List.length_append, hlen, List.length_singleton]
      omega
    rw [if_neg hcond]
    constructor
    · show s.history ++ _ = _
      rw [hh, snapList_concat]
      have h1 : gs.length - 50 = 0 := by omega
      have h2 : gs.length + 1 - 50 = 0 := by omega
      rw [h1, h2, List.drop_zero, List.drop_zero]
    · show s.historyIndex + 1 = _
      rw [hi]
      have h1 : min gs.length 50 = gs.length := by omega
      have h2 : min (gs.length + 1) 50 = gs.length + 1 := by omega
      rw [h1, h2]
      push_cast
      ring

theorem endStroke_of (s : EngineState) (st : Stroke) (L : Layer)
    (lid : String) (b : BrushSettings) (ls : List Layer)
    (h1 : s.isDrawing = true) (h2 : s.currentStroke = some st)
    (h3 : getActiveLayer s = some L) (h4 : s.activeLayerId = lid)
    (h5 : s.activeBrush = b) (h6 : s.layers = ls) :
    endStroke s =
      { s with
        layers := pushStrokeToLayer lid (finalizeStroke b st) ls
        currentStroke := none
        isDrawing := false } := by
  unfold endStroke
  rw [h1, h2, h3, h4, h5, h6]
  rfl

theorem doStroke_expected (t0 : ℕ) (gs : List StrokeSpec)
    (g : StrokeSpec) :
    doStroke (expectedState t0 gs) g = expectedState t0 (gs ++ [g]) := by
  have hstart : startStroke g.now g.first (expectedState t0 gs) =
      saveState g.now (startedState t0 gs g) := by
    unfold startStroke startedState
    rw [getActiveLayer_expectedState]
    simp only [expectedState_isDrawing, Bool.false_eq_true, if_false,
      stateLayer_locked, expectedState_strokeIdCounter,
      expectedState_activeBrush, expectedState_activeColor,
      expectedState_activeLayerId]
  have hsave := saveState_snap t0 gs g (startedState t0 gs g)
    (expectedState_history t0 gs) (expectedState_historyIndex t0 gs)
    rfl (expectedState_layers t0 gs) rfl
  have hfold : g.rest.foldl (fun acc p => addStrokePoint p acc)
      (saveState g.now (startedState t0 gs g)) =
      { saveState g.now (startedState t0 gs g) with
        currentStroke := some (grownStroke t0 gs g) } := by
    rw [foldl_addStrokePoint g.rest _
      (initialStroke g.now (gs.length + 1) defaultBrush "#000000"
        (defaultLayer t0).id g.first)
      (by rw [saveState_isDrawing]; rfl)
      (by rw [saveState_currentStroke]; rfl)]
    ext : 1
    case currentStroke =>
      rw [saveState_activeBrush]
      rfl
    all_goals rfl
  have hend := endStroke_of
    { saveState g.now (startedState t0 gs g) with
      currentStroke := some (grownStroke t0 gs g) }
    (grownStroke t0 gs g) (stateLayer t0 gs)
    ((defaultLayer t0).id) defaultBrush [stateLayer t0 gs]
    (by show (saveState g.now (startedState t0 gs g)).isDrawing = true
        rw [saveState_isDrawing]
        rfl)
    rfl
    (getActiveLayer_of_state t0 gs _
      (by show (saveState g.now (startedState t0 gs g)).layers = _
          rw [saveState_layers]
          rfl)
      (by show (saveState g.now (startedState t0 gs g)).activeLayerId = _
          rw [saveState_activeLayerId]
          rfl))
    (by show (saveState g.now (startedState t0 gs g)).activeLayerId = _
        rw [saveState_activeLayerId]
        rfl)
    (by show (saveState g.now (startedState t0 gs g)).activeBrush = _
        rw [saveState_activeBrush]
        rfl)
    (by show (saveState g.now (startedState t0 gs g)).layers = _
        rw [saveState_layers]
        rfl)
  unfold doStroke
  rw [hstart, hfold, hend]
  ext : 1
  case canvasWidth =>
    show (saveState g.now (startedState t0 gs g)).canvasWidth = _
    rw [saveState_canvasWidth]
    rfl
  case canvasHeight =>
    show (saveState g.now (startedState t0 gs g)).canvasHeight = _
    rw [saveState_canvasHeight]
    rfl
  case backgroundColor =>
    show (saveState g.now (startedState t0 gs g)).backgroundColor = _
    rw [saveState_backgroundColor]
    rfl
  case activeLayerId =>
    show (saveState g.now (startedState t0 gs g)).activeLayerId = _
    rw [saveState_activeLayerId]
    rfl
  case currentStroke => rfl
  case isDrawing => rfl
  case activeBrush =>
    show (saveState g.now (startedState t0 gs g)).activeBrush = _
    rw [saveState_activeBrush]
    rfl
  case activeColor =>
    show (saveState g.now (startedState t0 gs g)).activeColor = _
    rw [saveState_activeColor]
    rfl
  case maxHistorySize =>
    show (saveState g.now (startedState t0 gs g)).maxHistorySize = _
    rw [saveState_maxHistorySize]
    rfl
  case layerIdCounter =>
    show (saveState g.now (startedState t0 gs g)).layerIdCounter = _
    rw [saveState_layerIdCounter]
    rfl
  case strokeIdCounter =>
    show (saveState g.now (startedState t0 gs g)).strokeIdCounter = _
    rw [saveState_strokeIdCounter]
    show gs.length + 1 = (gs ++ [g]).length
    simp
  case history =>
    show (saveState g.now (startedState t0 gs g)).history = _
    rw [hsave.1, expectedState_history]
    congr 1
    simp
  case historyIndex =>
    show (saveState g.now (startedState t0 gs g)).historyIndex = _
    rw [hsave.2, expectedState_historyIndex]
    simp
  case layers =>
    show pushStrokeToLayer (defaultLayer t0).id
      (finalizeStroke defaultBrush (grownStroke t0 gs g))
      [stateLayer t0 gs] = _
    unfold pushStrokeToLayer
    rw [show ((stateLayer t0 gs).id == (defaultLayer t0).id) = true by
      rw [stateLayer_id]; exact beq_self_eq_true _]
    simp only [if_true]
    show [{ stateLayer t0 gs with
      strokes := (stateLayer t0 gs).strokes ++
        [strokeOf defaultBrush "#000000" (defaultLayer t0).id
          (gs.length + 1) g] }] = [stateLayer t0 (gs ++ [g])]
    have hstk : (stateLayer t0 gs).strokes ++
        [strokeOf defaultBrush "#000000" (defaultLayer t0).id
          (gs.length + 1) g] =
        strokesFrom defaultBrush "#000000" (defaultLayer t0).id 0
          (gs ++ [g]) := by
      rw [strokesFrom_append]
      show strokesFrom defaultBrush "#000000" (defaultLayer t0).id 0 gs ++
        _ = _
      congr 3
      omega
    rw [hstk]
    rfl

theorem runStrokes_expected (t0 : ℕ) (gs : List StrokeSpec) :
    runStrokes (initEngine t0) gs = expectedState t0 gs := by
  induction gs using List.reverseRecOn with
  | nil => rfl
  | append_singleton gs g ih =>
    unfold runStrokes
    rw [List.foldl_append]
    show doStroke (runStrokes (initEngine t0) gs) g = _
    rw [ih, doStroke_expected]

theorem restoreState_historyIndex (st : CanvasState) (s : EngineState) :
    (restoreState st s).historyIndex = s.historyIndex := rfl

theorem restoreState_history (st : CanvasState) (s : EngineState) :
    (restoreState st s).history = s.history := rfl

theorem restoreState_restoreState (st1 st2 : CanvasState)
    (s : EngineState) :
    restoreState st2 (restoreState st1 s) = restoreState st2 s := rfl

theorem undo_pos (s : EngineState) (h : 0 < s.historyIndex) :
    undo s = (restoreState
      (s.history.getD (s.historyIndex - 1).toNat default)
      { s with historyIndex := s.historyIndex - 1 }, true) := by
  unfold undo
  rw [if_neg (by omega)]

theorem undo_nonpos (s : EngineState) (h : s.historyIndex ≤ 0) :
    undo s = (s, false) := by
  unfold undo
  rw [if_pos h]

theorem undoN_stuck (n : ℕ) (s : EngineState) (h : s.historyIndex ≤ 0) :
    undoN n s = s := by
  induction n with
  | zero => rfl
  | succ n ih =>
    show undoN n (undo s).1 = s
    rw [undo_nonpos s h]
    exact ih

theorem undoN_reaches_zero (n : ℕ) :
    ∀ (s : EngineState) (k : ℕ), s.historyIndex = (k : ℤ) → 1 ≤ k →
      k ≤ n →
      undoN n s = restoreState (s.history.getD 0 default)
        { s with historyIndex := 0 } := by
  induction n with
  | zero =>
    intro s k h1 h2 h3
    omega
  | succ n ih =>
    intro s k h1 h2 h3
    show undoN n (undo s).1 = _
    rw [undo_pos s (by omega)]
    by_cases hk : k = 1
    · subst hk
      rw [undoN_stuck n _ (by
        show s.historyIndex - 1 ≤ 0
        omega)]
      rw [h1]
      rfl
    · have hrec := ih (restoreState
        (s.history.getD (s.historyIndex - 1).toNat default)
        { s with historyIndex := s.historyIndex - 1 }) (k - 1)
        (by show s.historyIndex - 1 = ((k - 1 : ℕ) : ℤ); omega)
        (by omega) (by omega)
      rw [hrec]
      rfl

theorem redo_stop (s : EngineState)
    (h : (s.history.length : ℤ) - 1 ≤ s.historyIndex) :
    redo s = (s, false) := by
  unfold redo
  rw [if_pos h]

theorem redo_mid (s : EngineState)
    (h : s.historyIndex < (s.history.length : ℤ) - 1) :
    redo s = (restoreState
      (s.history.getD (s.historyIndex + 1).toNat default)
      { s with historyIndex := s.historyIndex + 1 }, true) := by
  unfold redo
  rw [if_neg (by omega)]

theorem redoN_stuck (n : ℕ) (s : EngineState)
    (h : (s.history.length : ℤ) - 1 ≤ s.historyIndex) :
    redoN n s = s := by
  induction n with
  | zero => rfl
  | succ n ih =>
    show redoN n (redo s).1 = s
    rw [redo_stop s h]
    exact ih

theorem redoN_reaches_last (n : ℕ) :
    ∀ (s : EngineState) (i L : ℕ), s.history.length = L →
      s.historyIndex = (i : ℤ) → i < L - 1 → L - 1 - i ≤ n →
      redoN n s = restoreState (s.history.getD (L - 1) default)
        { s with historyIndex := ((L : ℤ) - 1) } := by
  induction n with
  | zero =>
    intro s i L h1 h2 h3 h4
    omega
  | succ n ih =>
    intro s i L h1 h2 h3 h4
    show redoN n (redo s).1 = _
    rw [redo_mid s (by omega)]
    by_cases hi : i + 1 = L - 1
    · rw [redoN_stuck n _ (by
        show (s.history.length : ℤ) - 1 ≤ s.historyIndex + 1
        omega)]
      have e1 : (s.historyIndex + 1).toNat = L - 1 := by omega
      have e2 : s.historyIndex + 1 = (L : ℤ) - 1 := by omega
      rw [e1, e2]
    · have hrec := ih (restoreState
        (s.history.getD (s.historyIndex + 1).toNat default)
        { s with historyIndex := s.historyIndex + 1 }) (i + 1) L
        (by show s.history.length = L; exact h1)
        (by show s.historyIndex + 1 = ((i + 1 : ℕ) : ℤ); omega)
        (by omega) (by omega)
      rw [hrec]
      rfl

theorem restoreState_activeLayerId (st : CanvasState) (s : EngineState) :
    (restoreState st s).activeLayerId = st.activeLayerId := rfl

theorem eraseDerivedStroke_rebuild (b : BrushSettings) (st : Stroke) :
    eraseDerivedStroke (rebuildStroke b st) = eraseDerivedStroke st := by
  unfold rebuildStroke
  split <;> rfl

theorem eraseDerivedLayers_map_rebuild (b : BrushSettings)
    (ls : List Layer) :
    eraseDerivedLayers (ls.map (rebuildLayer b)) = eraseDerivedLayers ls := by
  unfold eraseDerivedLayers rebuildLayer
  rw [List.map_map]
  apply List.map_congr_left
  intro l hl
  show { l with strokes :=
    (l.strokes.map (rebuildStroke b)).map eraseDerivedStroke } =
    { l with strokes := l.strokes.map eraseDerivedStroke }
  rw [List.map_map]
  congr 1
  apply List.map_congr_left
  intro st hst
  exact eraseDerivedStroke_rebuild b st

theorem eraseDerivedLayers_deepCopy (ls : List Layer) :
    eraseDerivedLayers (deepCopyLayers ls) = eraseDerivedLayers ls := by
  unfold eraseDerivedLayers deepCopyLayers deepCopyLayer
  rw [List.map_map]
  apply List.map_congr_left
  intro l hl
  show { l with strokes :=
    (l.strokes.map deepCopyStroke).map eraseDerivedStroke } =
    { l with strokes := l.strokes.map eraseDerivedStroke }
  rw [List.map_map]
  congr 1

theorem getD_drop {α : Type} [Inhabited α] (l : List α) (m i : ℕ)
    (d : α) : (l.drop m).getD i d = l.getD (m + i) d := by
  rw [List.getD_eq_getElem?_getD, List.getD_eq_getElem?_getD,
    List.getElem?_drop]

theorem snapList_getD (t0 : ℕ) (gs : List StrokeSpec) (i : ℕ)
    (h : i < gs.length) :
    (snapList t0 gs).getD i default =
      ⟨deepCopyLayers [stateLayer t0 (gs.take i)], (defaultLayer t0).id,
        (gs.getD i default).now⟩ := by
  unfold snapList
  rw [List.getD_eq_getElem?_getD, List.getElem?_map,
    List.getElem?_range h]
  rfl

theorem strokesFrom_dropLast (b : BrushSettings) (colorv lid : String)
    (c : ℕ) (gs : List StrokeSpec) (h : gs ≠ []) :
    (strokesFrom b colorv lid c gs).dropLast =
      strokesFrom b colorv lid c gs.dropLast := by
  have hdecomp : gs = gs.dropLast ++ [gs.getLast h] :=
    (List.dropLast_append_getLast h).symm
  nth_rewrite 1 [hdecomp]
  rw [strokesFrom_append, List.dropLast_concat]

/-- The snapshot restored by the final `redo` of the round trip: the canvas
as it was at the start of the last stroke. -/
theorem roundtrip_snapshot (t0 : ℕ) (gs : List StrokeSpec)
    (h2 : 2 ≤ gs.length) :
    (expectedState t0 gs).history.getD (min gs.length 50 - 1) default =
      ⟨deepCopyLayers [stateLayer t0 (gs.take (gs.length - 1))],
        (defaultLayer t0).id, (gs.getD (gs.length - 1) default).now⟩ := by
  rw [expectedState_history, getD_drop]
  have harith : gs.length - 50 + (min gs.length 50 - 1) =
      gs.length - 1 := by omega
  rw [harith, snapList_getD t0 gs (gs.length - 1) (by omega)]

/-- C1, corrected.  After N completed strokes (N at least 2), N `undo`
calls followed by N `redo` calls do NOT restore the pre-undo CanvasState:
because `saveState` runs at stroke START and the post-stroke state is
never pushed, the round trip ends in the snapshot taken at the start of
the Nth stroke — the pre-undo state with the LAST stroke removed (layers
compared modulo the derived path/paint caches, which the restore rebuilds).
The active layer id and the idle drawing state are preserved. -/
theorem claim1_thm (t0 : ℕ) (gs : List StrokeSpec) (h2 : 2 ≤ gs.length) :
    (roundTrip t0 gs).activeLayerId =
      (runStrokes (initEngine t0) gs).activeLayerId ∧
    eraseDerivedLayers (roundTrip t0 gs).layers =
      eraseDerivedLayers
        (dropLastStrokes (runStrokes (initEngine t0) gs).layers) ∧
    (roundTrip t0 gs).isDrawing = false ∧
    (roundTrip t0 gs).currentStroke = none := by
  have hrun := runStrokes_expected t0 gs
  have hundo := undoN_reaches_zero gs.length (expectedState t0 gs)
    (min gs.length 50 - 1)
    (by rw [expectedState_historyIndex]; omega)
    (by omega) (by omega)
  have hu_hist : (restoreState
      ((expectedState t0 gs).history.getD 0 default)
      { expectedState t0 gs with historyIndex := 0 }).history.length =
      min gs.length 50 := by
    rw [restoreState_history]
    show (expectedState t0 gs).history.length = min gs.length 50
    rw [expectedState_history, List.length_drop, snapList_length]
    omega
  have hredo := redoN_reaches_last gs.length
    (restoreState ((expectedState t0 gs).history.getD 0 default)
      { expectedState t0 gs with historyIndex := 0 })
    0 (min gs.length 50) hu_hist
    (by rw [restoreState_historyIndex]; rfl)
    (by omega) (by omega)
  have hrt : roundTrip t0 gs =
      restoreState ((expectedState t0 gs).history.getD
          (min gs.length 50 - 1) default)
        { expectedState t0 gs with
          historyIndex := ((min gs.length 50 : ℕ) : ℤ) - 1 } := by
    unfold roundTrip
    rw [hrun, hundo, hredo]
    rfl
  rw [hrt, hrun]
  rw [roundtrip_snapshot t0 gs h2]
  refine ⟨rfl, ?_, rfl, rfl⟩
  show eraseDerivedLayers
    ((deepCopyLayers (deepCopyLayers
      [stateLayer t0 (gs.take (gs.length - 1))])).map
        (rebuildLayer defaultBrush)) = _
  rw [eraseDerivedLayers_map_rebuild, eraseDerivedLayers_deepCopy,
    eraseDerivedLayers_deepCopy]
  have hR : dropLastStrokes (expectedState t0 gs).layers =
      [{ stateLayer t0 gs with
        strokes := strokesFrom defaultBrush "#000000"
          (defaultLayer t0).id 0 gs.dropLast }] := by
    have step1 : dropLastStrokes (expectedState t0 gs).layers =
        [{ stateLayer t0 gs with
          strokes := (strokesFrom defaultBrush "#000000"
            (defaultLayer t0).id 0 gs).dropLast }] := rfl
    rw [step1, strokesFrom_dropLast defaultBrush "#000000"
      (defaultLayer t0).id 0 gs
      (by intro hc; rw [hc] at h2; simp at h2)]
  rw [hR, List.dropLast_eq_take]
  rfl

/-- C1 counterexample: two single-point strokes, then `undo` twice and
`redo` twice; the pre-undo canvas has 2 strokes but the round trip ends
with 1 — the original claim's restored-state equality fails even modulo
derived geometry. -/
theorem claim1_counterexample :
    totalStrokes (runStrokes (initEngine 0) gs2) = 2 ∧
    totalStrokes (roundTrip 0 gs2) = 1 ∧
    eraseDerivedLayers (roundTrip 0 gs2).layers ≠
      eraseDerivedLayers (runStrokes (initEngine 0) gs2).layers := by
  with_unfolding_all decide

/-- C1 witness: the amended round-trip theorem applied to the concrete
two-stroke sequence `gs2`. -/
theorem claim1_witness :
    (roundTrip 0 gs2).activeLayerId =
      (runStrokes (initEngine 0) gs2).activeLayerId ∧
    eraseDerivedLayers (roundTrip 0 gs2).layers =
      eraseDerivedLayers
        (dropLastStrokes (runStrokes (initEngine 0) gs2).layers) ∧
    (roundTrip 0 gs2).isDrawing = false ∧
    (roundTrip 0 gs2).currentStroke = none :=
  claim1_thm 0 gs2 (by with_unfolding_all decide)

/-- C7, confirmed.  The history length never exceeds the bound 50 in any
reachable state, and 60 completed strokes leave exactly 50 entries: the
history equals the last 50 of the 60 snapshots (the oldest 10 evicted),
with the cursor at 49. -/
theorem claim7_thm :
    (∀ (t0 : ℕ) (ops : List Op),
      (runOps (initEngine t0) ops).history.length ≤ 50) ∧
    ∀ (t0 : ℕ) (gs : List StrokeSpec), gs.length = 60 →
      (runStrokes (initEngine t0) gs).history.length = 50 ∧
      (runStrokes (initEngine t0) gs).historyIndex = 49 ∧
      (runStrokes (initEngine t0) gs).history =
        (snapList t0 gs).drop 10 := by
  constructor
  · intro t0 ops
    obtain ⟨h1, h2, h3, h4, h5, h6, h7⟩ :=
      inv_runOps ops _ (inv_initEngine t0)
    omega
  · intro t0 gs hlen
    rw [runStrokes_expected t0 gs]
    refine ⟨?_, ?_, ?_⟩
    · rw [expectedState_history, List.length_drop, snapList_length]
      omega
    · rw [expectedState_historyIndex, hlen]
      decide
    · rw [expectedState_history, hlen]

/-- C7 witness: the bound and the 60-stroke scenario instantiated on the
concrete sequence `gs60`. -/
theorem claim7_witness :
    (runOps (initEngine 0) []).history.length ≤ 50 ∧
    (runStrokes (initEngine 0) gs60).history.length = 50 ∧
    (runStrokes (initEngine 0) gs60).historyIndex = 49 ∧
    (runStrokes (initEngine 0) gs60).history = (snapList 0 gs60).drop 10 :=
  ⟨claim7_thm.1 0 [],
    (claim7_thm.2 0 gs60 (by with_unfolding_all decide)).1,
    (claim7_thm.2 0 gs60 (by with_unfolding_all decide)).2.1,
    (claim7_thm.2 0 gs60 (by with_unfolding_all decide)).2.2⟩

end DrawingEngine
